import Mathlib

/-!
# CloudWatcher sync/reconciliation engine — verification development

Shallow embedding of the two sync implementations of the repository:

* **V1**: `backend/app.py` (`run_sync`, `connect_provider`) over the sqlite
  store of `backend/db.py` (`upsert_instances`, `get_instance_states`,
  `insert_sync_log`) with the connector registry of
  `backend/connectors/__init__.py`.
* **V2**: `backend/server.py` (`sync_all_accounts`, `generate_recommendations`,
  `update_recommendation`) over the Mongo collections, with the
  provider connectors of `backend/connectors.py` (state normalization maps,
  timestamp stamping of `AWSConnector.list_instances`).

Network calls (boto3 / Azure SDK / HTTP) are modelled as parameters: a fetch
function returning `Except` (a raised connector exception is `.error`).
Wall-clock time is a `String` parameter (`utc_now()` / `datetime.now()` is
treated as constant within one run).  Python `None` is `Option.none`; Python
dicts whose values are strings are association lists.
-/

namespace CloudWatcher

/-! ## V1 data model (`backend/db.py` sqlite schema, connector dicts) -/

/-- Canonical instance dictionary produced by the v1 connectors
(`backend/connectors/aws_conn.py` and friends).  Fields that Python may hold
as `None` are `Option String`; `tags` and `raw` are opaque serialized
payloads (`json.dumps` in `upsert_instances` is modelled as the identity on
this opaque representation). -/
structure V1Inst where
  provider : Option String := none
  account : Option String := none
  region : Option String := none
  instance_id : Option String := none
  name : Option String := none
  size : Option String := none
  state : Option String := none
  public_ip : Option String := none
  private_ip : Option String := none
  tags : String := ""
  raw : String := ""
deriving DecidableEq, Repr

/-- A row of the sqlite `instances` table: `provider` and `instance_id` are
`NOT NULL`, the primary key is `(provider, instance_id, region)`. -/
structure V1Row where
  provider : String
  account : Option String := none
  region : Option String := none
  instance_id : String
  name : Option String := none
  size : Option String := none
  state : Option String := none
  public_ip : Option String := none
  private_ip : Option String := none
  tags : String := ""
  raw : String := ""
  updated_at : Option String := none
deriving DecidableEq, Repr

/-- Identity triples as they appear as Python dict keys in `run_sync`:
`(inst.get("provider"), inst.get("instance_id"), inst.get("region"))`,
each component possibly `None`. -/
abbrev IdKey := Option String × Option String × Option String

def instKey (i : V1Inst) : IdKey := (i.provider, i.instance_id, i.region)

def rowKey (r : V1Row) : IdKey := (some r.provider, some r.instance_id, r.region)

/-- Python `str.lower()` restricted to ASCII (all provider identifiers and
status strings are ASCII). -/
def asciiLowerChar (c : Char) : Char :=
  if 'A' ≤ c ∧ c ≤ 'Z' then Char.ofNat (c.toNat + 32) else c

def asciiLower (s : String) : String :=
  String.mk (s.data.map asciiLowerChar)

/-- Python truthiness of an optional string (`None` and `""` are falsy). -/
def pyTruthy : Option String → Bool
  | none => false
  | some s => decide (s ≠ "")

/-- The row that the `INSERT` statement of `upsert_instances` would write for
one connector item: fails (sqlite `NOT NULL` constraint) when `provider` or
`instance_id` is `None`. -/
def rowOfInst (i : V1Inst) (now : String) : Option V1Row :=
  match i.provider, i.instance_id with
  | some p, some iid =>
      some { provider := p, account := i.account, region := i.region,
             instance_id := iid, name := i.name, size := i.size,
             state := i.state, public_ip := i.public_ip,
             private_ip := i.private_ip, tags := i.tags, raw := i.raw,
             updated_at := some now }
  | _, _ => none

/-- One `INSERT ... ON CONFLICT(provider, instance_id, region) DO UPDATE`
statement of `upsert_instances` (`backend/db.py`).  sqlite treats `NULL`
values of the unique index as pairwise distinct, so a row with `region NULL`
never conflicts and is appended; a conflicting row has every non-key column
overwritten by the excluded values (equivalently, it is replaced by the new
row, the key columns being equal). -/
def upsertOne (now : String) (store : List V1Row) (i : V1Inst) :
    Except String (List V1Row) :=
  match rowOfInst i now with
  | none => .error "NOT NULL constraint failed: instances"
  | some r =>
      if r.region.isSome && store.any (fun s => decide (rowKey s = rowKey r)) then
        .ok (store.map (fun s => if rowKey s = rowKey r then r else s))
      else
        .ok (store ++ [r])

/-- `upsert_instances` (`backend/db.py` lines 87–126): early return on an
empty list, otherwise one upsert statement per item in list order inside a
single transaction.  An error leaves the store unchanged (the connection is
closed without commit) and propagates to the caller. -/
def upsert_instances (store : List V1Row) (items : List V1Inst) (now : String) :
    Except String (List V1Row) :=
  if items.isEmpty then .ok store
  else items.foldlM (upsertOne now) store

/-- `get_instance_states` (`backend/db.py` lines 148–161): a dict from
identity triple to state over the rows of one provider; built in row order,
so for duplicate keys (possible only with `NULL` regions) the later row
wins, and `dict.get` on an absent key or a `NULL` state both yield `None`. -/
def get_instance_states (store : List V1Row) (p : String) : IdKey → Option String :=
  fun k =>
    match ((store.filter (fun r => decide (r.provider = p))).reverse.find?
        (fun r => decide (rowKey r = k))) with
    | some r => r.state
    | none => none

/-- The state-change filter of `run_sync` (`backend/app.py` lines 105–117):
for each fetched instance, look up the previous state by identity triple and
keep the pair when `prev_state and new_state and prev_state != new_state and
prev_state in ("running", "stopped") and new_state in ("running", "stopped")`. -/
def stateChangesFor (existing : IdKey → Option String) (items : List V1Inst) :
    List (V1Inst × String × String) :=
  items.filterMap fun inst =>
    match existing (instKey inst), inst.state with
    | some p, some n =>
        if p ≠ "" ∧ n ≠ "" ∧ p ≠ n ∧ (p = "running" ∨ p = "stopped") ∧
            (n = "running" ∨ n = "stopped")
        then some (inst, p, n) else none
    | _, _ => none

/-- Per-provider entry of the `results` dict of `run_sync`: the only keys the
code ever writes are `connected`, `error` and `count`. -/
structure ProviderResult where
  connected : Bool
  error : Option String := none
  count : Option Nat := none
deriving DecidableEq, Repr

/-- A row of the `sync_logs` table (`insert_sync_log`, `backend/db.py`). -/
structure V1LogEntry where
  source : String
  started_at : String
  finished_at : String
  duration_ms : Nat
  total : Nat
  results : List (String × ProviderResult)
deriving DecidableEq, Repr

/-- The connector registry membership of `backend/connectors/__init__.py`:
`_CONNECTORS` holds exactly `aws` and `azure`. -/
def hasConnector (p : String) : Bool :=
  decide (p = "aws") || decide (p = "azure")

/-- Accumulator of the provider loop of `run_sync`. -/
structure V1Acc where
  store : List V1Row
  results : List (String × ProviderResult)
  total : Nat
  alerts : List (V1Inst × String × String)
deriving DecidableEq, Repr

/-- One iteration of the provider loop of `run_sync` (`backend/app.py` lines
91–129).  `credsOf` models `get_credentials`; `fetchOf` models the network
behaviour of the registered connector's `list_instances`.  Alerts are the
`state_changes` handed to `build_state_alert`/`send_email` (delivery is an
external boundary; per-alert exceptions are swallowed by the code). -/
def providerStep (credsOf : String → Option (List (String × String)))
    (fetchOf : String → List (String × String) → Except String (List V1Inst))
    (now : String) (acc : V1Acc) (p : String) : V1Acc :=
  let existing := get_instance_states acc.store p
  match credsOf p with
  | none => { acc with results := acc.results ++ [(p, { connected := false })] }
  | some creds =>
      if creds.isEmpty then
        { acc with results := acc.results ++ [(p, { connected := false })] }
      else if ¬ hasConnector p then
        { acc with results := acc.results ++
            [(p, { connected := true, error := some "Connector not found" })] }
      else
        match fetchOf p creds with
        | .error e =>
            { acc with results := acc.results ++
                [(p, { connected := true, error := some e })] }
        | .ok items =>
            let changes := stateChangesFor existing items
            match upsert_instances acc.store items now with
            | .error e =>
                { acc with results := acc.results ++
                    [(p, { connected := true, error := some e })] }
            | .ok store' =>
                { store := store',
                  results := acc.results ++
                    [(p, { connected := true, count := some items.length })],
                  total := acc.total + items.length,
                  alerts := acc.alerts ++ changes }

/-- Persistent v1 state: the sqlite `instances` and `sync_logs` tables. -/
structure V1State where
  store : List V1Row
  logs : List V1LogEntry
deriving DecidableEq, Repr

/-- Outcome of one `run_sync` call: the updated tables, the returned
`(results, total)` pair, and the emitted state-change alerts. -/
structure V1RunOutcome where
  store : List V1Row
  logs : List V1LogEntry
  results : List (String × ProviderResult)
  total : Nat
  alerts : List (V1Inst × String × String)
deriving DecidableEq, Repr

/-- `run_sync` (`backend/app.py` lines 85–137): loop over `["aws", "azure"]`,
then one best-effort `insert_sync_log` (its failure, modelled by
`logOk = false`, is swallowed and does not affect the returned value). -/
def run_sync (credsOf : String → Option (List (String × String)))
    (fetchOf : String → List (String × String) → Except String (List V1Inst))
    (init : V1State) (source now : String) (dur : Nat) (logOk : Bool) :
    V1RunOutcome :=
  let acc := ["aws", "azure"].foldl (providerStep credsOf fetchOf now)
    { store := init.store, results := [], total := 0, alerts := [] }
  let entry : V1LogEntry :=
    { source := source, started_at := now, finished_at := now,
      duration_ms := dur, total := acc.total, results := acc.results }
  { store := acc.store,
    logs := if logOk then init.logs ++ [entry] else init.logs,
    results := acc.results, total := acc.total, alerts := acc.alerts }

/-- Required credential fields of `connect_provider` (`backend/app.py` lines
172–175): the dict enumerates only `aws` and `azure`; other providers never
reach the lookup because the registry check rejects them first. -/
def v1RequiredFields : String → List String
  | "aws" => ["access_key_id", "secret_access_key", "region"]
  | "azure" => ["tenant_id", "client_id", "client_secret", "subscription_id"]
  | _ => []

/-- Response of the `POST /connect/<provider>` endpoint, restricted to the
shapes the code produces. -/
inductive ConnectResp where
  | unsupported
  | missingFields (fs : List String)
  | ok (provider : String)
deriving DecidableEq, Repr

/-- `connect_provider` (`backend/app.py` lines 157–186): lowercase the
provider, reject unknown providers (registry lookup), reject bodies missing
required fields, else upsert the credentials.  Returns the response and the
updated credentials store. -/
def connect_provider (credStore : List (String × List (String × String)))
    (provider0 : String) (data : List (String × String)) :
    ConnectResp × List (String × List (String × String)) :=
  let provider := asciiLower provider0
  if ¬ hasConnector provider then (.unsupported, credStore)
  else
    let missing := (v1RequiredFields provider).filter
      (fun f => ¬ (data.map Prod.fst).contains f)
    if missing.isEmpty then
      (.ok provider,
        (credStore.filter (fun c => decide (c.1 ≠ provider))) ++ [(provider, data)])
    else (.missingFields missing, credStore)

/-! ## V2 connectors (`backend/connectors.py`): state normalization and
timestamp stamping -/

/-- Substring test (Python `needle in hay` on strings). -/
def charsContain (needle : List Char) : List Char → Bool
  | [] => needle.isEmpty
  | c :: t => needle.isPrefixOf (c :: t) || charsContain needle t

def strContains (hay needle : String) : Bool :=
  charsContain needle.toList hay.toList

/-- Python `dict.get k` on a string-valued dict. -/
def assocGet (m : List (String × String)) (k : String) : Option String :=
  (m.find? (fun p => decide (p.1 = k))).map Prod.snd

/-- `state_map` of `AzureConnector.list_instances` (`backend/connectors.py`
lines 155–162). -/
def azureStateMap : List (String × String) :=
  [("running", "running"), ("deallocated", "stopped"), ("stopped", "stopped"),
   ("starting", "pending"), ("stopping", "pending"), ("deallocating", "pending")]

/-- Azure state normalization: `state_map.get(power_state, power_state)` —
unmapped power states pass through verbatim. -/
def azureNormalizeState (s : String) : String :=
  (assocGet azureStateMap s).getD s

/-- `status_map` of `GCPConnector.list_instances` (`backend/connectors.py`
lines 251–259). -/
def gcpStatusMap : List (String × String) :=
  [("RUNNING", "running"), ("TERMINATED", "terminated"), ("STOPPED", "stopped"),
   ("STAGING", "pending"), ("PROVISIONING", "pending"),
   ("SUSPENDING", "pending"), ("SUSPENDED", "stopped")]

/-- GCP state normalization:
`status_map.get(instance.status, instance.status.lower())` — an unmapped
status falls back to its **lowercased** form, not the verbatim one. -/
def gcpNormalizeState (s : String) : String :=
  (assocGet gcpStatusMap s).getD (asciiLower s)

/-- `status_map` of `DigitalOceanConnector.list_instances`
(`backend/connectors.py` lines 348–353). -/
def doStatusMap : List (String × String) :=
  [("active", "running"), ("off", "stopped"), ("new", "pending"),
   ("archive", "terminated")]

/-- DigitalOcean state normalization:
`status_map.get(droplet.get('status'), droplet.get('status'))` — a `None`
status stays `None`, an unmapped status passes through verbatim. -/
def doNormalizeState : Option String → Option String
  | some s => some ((assocGet doStatusMap s).getD s)
  | none => none

/-- Canonical v2 instance dictionary (the shape every connector of
`backend/connectors.py` appends, also the `Instance` pydantic model of
`backend/server.py`).  `id` is the surrogate uuid regenerated per fetch;
`raw` is the opaque provider payload. -/
structure V2Inst where
  id : String := ""
  provider : String
  cloud_account_id : String
  region_or_zone : Option String := none
  instance_id : Option String := none
  name : Option String := none
  instance_type_or_size : Option String := none
  state : Option String := none
  public_ip : Option String := none
  private_ip : Option String := none
  tags : List (String × String) := []
  raw : String := ""
  first_seen_at : String
  last_seen_at : String
  updated_at : String
deriving DecidableEq, Repr

/-- The fields of one EC2 API instance that
`AWSConnector.list_instances` reads (`Tags` is the raw list of
`{Key, Value}` pairs; `raw` stands for the extracted opaque payload). -/
structure AwsApiInstance where
  instanceId : Option String := none
  instanceType : Option String := none
  stateName : Option String := none
  publicIp : Option String := none
  privateIp : Option String := none
  tagList : List (Option String × Option String) := []
  raw : String := ""
deriving DecidableEq, Repr

/-- Python dict insertion: update in place if the key exists, else append. -/
def assocSet (m : List (String × String)) (k v : String) : List (String × String) :=
  if m.any (fun p => decide (p.1 = k)) then
    m.map (fun p => if p.1 = k then (k, v) else p)
  else m ++ [(k, v)]

/-- Tag extraction of `AWSConnector.list_instances`:
`tags[tag.get('Key', '')] = tag.get('Value', '')` over the raw tag list. -/
def awsTagsDict (ts : List (Option String × Option String)) : List (String × String) :=
  ts.foldl (fun acc t => assocSet acc (t.1.getD "") (t.2.getD "")) []

/-- The normalized dict `AWSConnector.list_instances` appends per instance
(`backend/connectors.py` lines 62–85): note `first_seen_at`, `last_seen_at`
and `updated_at` are all stamped with the **current** fetch time. -/
def awsNormalizeV2 (uuid account_id region : String) (inst : AwsApiInstance)
    (now : String) : V2Inst :=
  let tags := awsTagsDict inst.tagList
  { id := uuid, provider := "aws", cloud_account_id := account_id,
    region_or_zone := some region, instance_id := inst.instanceId,
    name := some ((assocGet tags "Name").getD ""),
    instance_type_or_size := inst.instanceType,
    state := some (inst.stateName.getD "unknown"),
    public_ip := inst.publicIp, private_ip := inst.privateIp,
    tags := tags, raw := inst.raw,
    first_seen_at := now, last_seen_at := now, updated_at := now }

/-- The credential-extraction part of `AWSConnector.__init__`
(`backend/connectors.py` lines 24–28): plain `dict.get` calls with a default
region of `"us-east-1"`, and **no validation whatsoever** — construction
never fails, whatever fields are missing. -/
structure AwsConnCfg where
  access_key_id : Option String
  secret_access_key : Option String
  region : String
deriving DecidableEq, Repr

def awsConnectorInit (credentials : List (String × String)) : AwsConnCfg :=
  { access_key_id := assocGet credentials "access_key_id",
    secret_access_key := assocGet credentials "secret_access_key",
    region := (assocGet credentials "region").getD "us-east-1" }

/-- The phase of the v2 fetch path (`fetch_instances` → `get_connector` →
`AWSConnector.__init__`) that runs **before** any network I/O: the registry
lookup can raise `ValueError` for an unknown provider, after which the AWS
constructor only extracts fields.  Everything later is the network call. -/
def v2AwsPreNetwork (provider : String) (credentials : List (String × String)) :
    Except String AwsConnCfg :=
  if provider = "aws" then .ok (awsConnectorInit credentials)
  else .error ("Unknown provider: " ++ provider)

/-! ## V2 persistence and orchestration (`backend/server.py`) -/

/-- A `cloud_accounts` document (the `CloudAccount` model of
`backend/server.py`); `credentials` is the opaque encrypted blob. -/
structure AccountRow where
  id : String
  provider : String
  account_name : Option String := none
  account_identifier : Option String := none
  credentials : String := ""
  status : String := "connected"
  last_checked_at : Option String := none
  last_sync_at : Option String := none
  last_error : Option String := none
  instance_count : Nat := 0
  created_at : String := ""
  updated_at : String := ""
deriving DecidableEq, Repr

/-- A `recommendations` document (the `Recommendation` model).  `evidence`
holds the string-rendered evidence dict. -/
structure Rec where
  id : String := ""
  provider : Option String := none
  cloud_account_id : Option String := none
  resource_type : String := "instance"
  resource_id : Option String := none
  category : String
  rule_id : String
  severity : String
  title : String
  description : String
  evidence : List (String × Option String) := []
  status : String := "open"
  created_at : String
  updated_at : String
deriving DecidableEq, Repr

/-- Audit-event payloads written by the sync path. -/
inductive AuditPayload where
  | syncStarted (account_count : Nat)
  | syncCompleted (accounts_synced instances_found recommendations_generated : Nat)
      (errors : List String)
  | recommendationUpdated (new_status : String)
deriving DecidableEq, Repr

structure AuditEvent where
  event_type : String
  payload : AuditPayload
deriving DecidableEq, Repr

/-- The Mongo collections the sync path touches. -/
structure V2DB where
  cloud_accounts : List AccountRow
  instances : List V2Inst
  recommendations : List Rec
  audit_events : List AuditEvent
deriving DecidableEq, Repr

/-- Python `f"{x}"` rendering of an optional string (`None` prints as
`"None"`). -/
def pyStr : Option String → String
  | some s => s
  | none => "None"

/-- `large_types` of `generate_recommendations` (`backend/server.py` line 352). -/
def largeTypes : List String :=
  ["xlarge", "2xlarge", "large", "Standard_E", "n2-standard"]

/-- The FINOPS-001 recommendation built for a stopped instance
(`backend/server.py` lines 306–326); the uuid is assigned later in list
order. -/
def finops001 (now : String) (i : V2Inst) : Rec :=
  let n := pyStr i.name
  { provider := some i.provider, cloud_account_id := some i.cloud_account_id,
    resource_id := i.instance_id, category := "finops", rule_id := "FINOPS-001",
    severity := "medium", title := "Stopped Instance Incurring Storage Costs",
    description := s!"Instance {n} has been stopped but is still incurring storage costs. Consider terminating if no longer needed.",
    evidence := [("instance_name", i.name), ("region", i.region_or_zone),
                 ("state", i.state)],
    status := "open", created_at := now, updated_at := now }

/-- The SECOPS-001 recommendation built for a public-IP instance
(`backend/server.py` lines 329–349). -/
def secops001 (now : String) (i : V2Inst) : Rec :=
  let n := pyStr i.name
  let ip := pyStr i.public_ip
  { provider := some i.provider, cloud_account_id := some i.cloud_account_id,
    resource_id := i.instance_id, category := "secops", rule_id := "SECOPS-001",
    severity :=
      if assocGet i.tags "environment" = some "production" then "high" else "medium",
    title := "Instance with Public IP Exposure",
    description := s!"Instance {n} has a public IP ({ip}). Verify this is intentional and security groups are properly configured.",
    evidence := [("instance_name", i.name), ("public_ip", i.public_ip),
                 ("environment", some ((assocGet i.tags "environment").getD "unknown"))],
    status := "open", created_at := now, updated_at := now }

/-- The FINOPS-002 recommendation built for a large non-production instance
(`backend/server.py` lines 352–374). -/
def finops002 (now : String) (i : V2Inst) : Rec :=
  let n := pyStr i.name
  let sz := pyStr i.instance_type_or_size
  let env := (assocGet i.tags "environment").getD "unknown"
  { provider := some i.provider, cloud_account_id := some i.cloud_account_id,
    resource_id := i.instance_id, category := "finops", rule_id := "FINOPS-002",
    severity := "low", title := "Large Instance in Non-Production Environment",
    description := s!"Instance {n} uses {sz} in {env}. Consider rightsizing.",
    evidence := [("instance_name", i.name), ("instance_type", i.instance_type_or_size),
                 ("environment", some env)],
    status := "open", created_at := now, updated_at := now }

/-- The per-instance body of `generate_recommendations`
(`backend/server.py` lines 304–374): FINOPS-001 for stopped state, SECOPS-001
for a truthy public IP, FINOPS-002 when the size string contains a large type
and the environment tag differs from `"production"`
(`str(None)` renders as `"None"`). -/
def recsForInstance (now : String) (i : V2Inst) : List Rec :=
  (if i.state = some "stopped" then [finops001 now i] else []) ++
  (if pyTruthy i.public_ip then [secops001 now i] else []) ++
  (if largeTypes.any (fun lt => strContains (pyStr' i.instance_type_or_size) lt) ∧
      ¬ assocGet i.tags "environment" = some "production"
   then [finops002 now i] else [])
where
  /-- `str(instance.get("instance_type_or_size", ""))`: the connectors always
  set the key, so a missing value is Python `None`, rendered `"None"`. -/
  pyStr' : Option String → String
    | some s => s
    | none => "None"

/-- Assign the uuids created in order by `str(uuid.uuid4())`: modelled as a
deterministic supply indexed by creation order. -/
def assignIds (fresh : Nat → String) (k : Nat) : List Rec → List Rec
  | [] => []
  | r :: rs => { r with id := fresh k } :: assignIds fresh (k + 1) rs

/-- `generate_recommendations` (`backend/server.py` lines 300–376). -/
def generate_recommendations (fresh : Nat → String) (now : String)
    (instances : List V2Inst) : List Rec :=
  assignIds fresh 0 (instances.flatMap (recsForInstance now))

/-- Mongo `update_one`: update the first matching document only. -/
def updateFirst {α : Type} (p : α → Prop) [DecidablePred p] (f : α → α) :
    List α → List α
  | [] => []
  | x :: xs => if p x then f x :: xs else x :: updateFirst p f xs

/-- `account.get('account_name', account['id'])`: the documents are inserted
from `CloudAccount.model_dump()`, so the key is always present and a stored
`None` is returned (and rendered `"None"` in the f-string), not the default. -/
def accountLabel (a : AccountRow) : String :=
  pyStr a.account_name

/-- Result of one iteration of the account loop of `sync_all_accounts`. -/
structure StepOut where
  db : V2DB
  added : Nat
  recsAdded : Nat
  err : Option String
deriving Repr

/-- One iteration of the account loop of `sync_all_accounts`
(`backend/server.py` lines 793–849): mark syncing, fetch, then on success
delete-and-reinsert the account's instances, regenerate and delete-and-
reinsert its recommendations, and mark connected; on any failure record the
error message and mark the account status `error`.  `fetch` models
`fetch_instances` (registry resolution plus the connector's network call);
`fresh` is the uuid supply for the generated recommendations. -/
def syncAccount (fetch : AccountRow → Except String (List V2Inst))
    (fresh : String → Nat → String) (now : String) (db : V2DB) (a : AccountRow) :
    StepOut :=
  let accts1 := updateFirst (fun r => r.id = a.id)
    (fun r => { r with status := "syncing", last_checked_at := some now })
    db.cloud_accounts
  let db1 : V2DB := { db with cloud_accounts := accts1 }
  match fetch a with
  | .ok items =>
      let insts2 :=
        db1.instances.filter (fun i => decide (i.cloud_account_id ≠ a.id)) ++ items
      let db2 : V2DB := { db1 with instances := insts2 }
      let recs := generate_recommendations (fresh a.id) now items
      let recs3 :=
        db2.recommendations.filter (fun r => decide (r.cloud_account_id ≠ some a.id))
          ++ recs
      let db3 : V2DB := { db2 with recommendations := recs3 }
      let accts4 := updateFirst (fun r => r.id = a.id)
        (fun r => { r with status := "connected", last_sync_at := some now, last_error := none, instance_count := items.length })
        db3.cloud_accounts
      let db4 : V2DB := { db3 with cloud_accounts := accts4 }
      { db := db4, added := items.length, recsAdded := recs.length, err := none }
  | .error e =>
      let l := accountLabel a
      let accts2 := updateFirst (fun r => r.id = a.id)
        (fun r => { r with status := "error", last_error := some e })
        db1.cloud_accounts
      let db2 : V2DB := { db1 with cloud_accounts := accts2 }
      { db := db2, added := 0, recsAdded := 0, err := some s!"Account {l}: {e}" }

/-- The account loop of `sync_all_accounts`, returning the final state, total
instances, total recommendations and the error list in account order. -/
def syncLoop (fetch : AccountRow → Except String (List V2Inst))
    (fresh : String → Nat → String) (now : String) (db : V2DB) :
    List AccountRow → V2DB × Nat × Nat × List String
  | [] => (db, 0, 0, [])
  | a :: rest =>
      let s := syncAccount fetch fresh now db a
      let t := syncLoop fetch fresh now s.db rest
      (t.1, s.added + t.2.1, s.recsAdded + t.2.2.1, s.err.toList ++ t.2.2.2)

/-- The `SyncResult` model returned by `POST /api/sync`. -/
structure SyncResult where
  success : Bool
  accounts_synced : Nat
  instances_found : Nat
  errors : List String
  timestamp : String
deriving DecidableEq, Repr

/-- The account list a sync run operates on:
`db.cloud_accounts.find({"status": {"$ne": "disabled"}}).to_list(100)`. -/
def loadedAccounts (db : V2DB) : List AccountRow :=
  (db.cloud_accounts.filter (fun a => decide (a.status ≠ "disabled"))).take 100

/-- The `sync.started` audit event prepended to the run. -/
def startedDb (db : V2DB) (n : Nat) : V2DB :=
  { db with audit_events := db.audit_events ++
      [{ event_type := "sync.started", payload := .syncStarted n }] }

/-- The `sync.completed` audit event: `accounts_synced` is
`len(accounts) - len(errors)`. -/
def completedEvent (nAccounts : Nat) (total totalRecs : Nat)
    (errors : List String) : AuditEvent :=
  { event_type := "sync.completed",
    payload := .syncCompleted (nAccounts - errors.length) total totalRecs errors }

/-- `sync_all_accounts` (`backend/server.py` lines 773–874): load the
non-disabled accounts (capped at 100 by `to_list(100)`), early-return when
none, else audit `sync.started`, run the account loop, audit
`sync.completed` with `accounts_synced = len(accounts) - len(errors)`, and
return the `SyncResult` (the WebSocket broadcast carries the same numbers and
is an external boundary). -/
def sync_all_accounts (fetch : AccountRow → Except String (List V2Inst))
    (fresh : String → Nat → String) (now : String) (db : V2DB) :
    V2DB × SyncResult :=
  let accounts := loadedAccounts db
  if accounts.isEmpty then
    (db, { success := true, accounts_synced := 0, instances_found := 0,
           errors := ["No cloud accounts configured"], timestamp := now })
  else
    let t := syncLoop fetch fresh now (startedDb db accounts.length) accounts
    let db2 : V2DB := { t.1 with audit_events := t.1.audit_events ++
        [completedEvent accounts.length t.2.1 t.2.2.1 t.2.2.2] }
    (db2, { success := t.2.2.2.isEmpty, accounts_synced := accounts.length,
            instances_found := t.2.1, errors := t.2.2.2, timestamp := now })

/-- `update_recommendation` (`backend/server.py` lines 989–1001): set the
status and `updated_at` of the first recommendation with the given id; when
no document is modified, respond 404.  Returns the updated state or the
error. -/
def update_recommendation (db : V2DB) (rid status now : String) :
    Except String V2DB :=
  let updated := updateFirst (fun r => r.id = rid)
    (fun r => { r with status := status, updated_at := now }) db.recommendations
  if updated = db.recommendations then .error "Recommendation not found"
  else
    let ev : AuditEvent :=
      { event_type := "recommendation.updated", payload := .recommendationUpdated status }
    .ok { db with recommendations := updated, audit_events := db.audit_events ++ [ev] }

/-! ## Generic list helpers -/

theorem find?_eq_some_of_all {α : Type} {l : List α} {p : α → Bool} {r : α}
    (hex : ∃ x ∈ l, p x) (hall : ∀ x ∈ l, p x → x = r) : l.find? p = some r := by
  induction l with
  | nil => rcases hex with ⟨x, hx, -⟩; cases hx
  | cons a l ih =>
      by_cases hpa : p a
      · have har : a = r := hall a (by simp) hpa
        subst har
        simp [List.find?, hpa]
      · simp only [List.find?, Bool.not_eq_true] at hpa ⊢
        rw [hpa]
        rcases hex with ⟨x, hx, hpx⟩
        rcases List.mem_cons.mp hx with rfl | hx
        · rw [hpx] at hpa; cases hpa
        · exact ih ⟨x, hx, hpx⟩ (fun y hy hpy => hall y (List.mem_cons_of_mem _ hy) hpy)

theorem filter_map_eq_of {α : Type} {l : List α} {g : α → α} {q : α → Bool}
    (h : ∀ x ∈ l, q (g x) = q x ∧ (q x = true → g x = x)) :
    (l.map g).filter q = l.filter q := by
  induction l with
  | nil => rfl
  | cons a l ih =>
      have ha := h a (by simp)
      by_cases hqa : q a
      · simp [List.filter_cons, hqa, ha.1, ha.2 hqa,
          ih (fun x hx => h x (List.mem_cons_of_mem _ hx))]
      · simp only [Bool.not_eq_true] at hqa
        simp [List.filter_cons, hqa, ha.1,
          ih (fun x hx => h x (List.mem_cons_of_mem _ hx))]

theorem find?_map_eq_of {α : Type} {l : List α} {g : α → α} {q : α → Bool}
    (h : ∀ x ∈ l, q (g x) = q x ∧ (q x = true → g x = x)) :
    (l.map g).find? q = l.find? q := by
  induction l with
  | nil => rfl
  | cons a l ih =>
      have ha := h a (by simp)
      by_cases hqa : q a
      · simp [List.find?, hqa, ha.1, ha.2 hqa]
      · simp only [Bool.not_eq_true] at hqa
        simp only [List.map_cons, List.find?, hqa, ha.1]
        exact ih (fun x hx => h x (List.mem_cons_of_mem _ hx))

/-! ## V1 upsert machinery -/

/-- The row written for an item whose `provider` and `instance_id` are
present (total companion of `rowOfInst`). -/
def mkRow (i : V1Inst) (now : String) : V1Row :=
  { provider := i.provider.getD "", account := i.account, region := i.region,
    instance_id := i.instance_id.getD "", name := i.name, size := i.size,
    state := i.state, public_ip := i.public_ip, private_ip := i.private_ip,
    tags := i.tags, raw := i.raw, updated_at := some now }

/-- Total version of one upsert statement (defined on well-formed items). -/
def upsertOneT (now : String) (store : List V1Row) (i : V1Inst) : List V1Row :=
  let r := mkRow i now
  if r.region.isSome && store.any (fun s => decide (rowKey s = rowKey r)) then
    store.map (fun s => if rowKey s = rowKey r then r else s)
  else store ++ [r]

/-- Total version of `upsert_instances` on well-formed items. -/
def upsertT (now : String) (store : List V1Row) (items : List V1Inst) : List V1Row :=
  items.foldl (upsertOneT now) store

theorem rowOfInst_eq_mkRow {i : V1Inst} (h1 : i.provider.isSome)
    (h2 : i.instance_id.isSome) (now : String) :
    rowOfInst i now = some (mkRow i now) := by
  obtain ⟨p, hp⟩ := Option.isSome_iff_exists.mp h1
  obtain ⟨q, hq⟩ := Option.isSome_iff_exists.mp h2
  simp [rowOfInst, mkRow, hp, hq]

theorem mkRow_rowKey {i : V1Inst} (h1 : i.provider.isSome)
    (h2 : i.instance_id.isSome) (now : String) :
    rowKey (mkRow i now) = instKey i := by
  obtain ⟨p, hp⟩ := Option.isSome_iff_exists.mp h1
  obtain ⟨q, hq⟩ := Option.isSome_iff_exists.mp h2
  simp [mkRow, rowKey, instKey, hp, hq]

theorem upsertOne_eq_T {i : V1Inst} (h1 : i.provider.isSome)
    (h2 : i.instance_id.isSome) (now : String) (store : List V1Row) :
    upsertOne now store i = .ok (upsertOneT now store i) := by
  rw [upsertOne, rowOfInst_eq_mkRow h1 h2, upsertOneT]
  by_cases h : ((mkRow i now).region.isSome &&
      store.any fun s => decide (rowKey s = rowKey (mkRow i now))) = true
  · simp [h]
  · simp [h]

theorem foldlM_upsertOne_eq {items : List V1Inst}
    (hnn : ∀ i ∈ items, i.provider.isSome ∧ i.instance_id.isSome)
    (now : String) (store : List V1Row) :
    items.foldlM (upsertOne now) store = .ok (upsertT now store items) := by
  induction items generalizing store with
  | nil => rfl
  | cons i l ih =>
      have hi := hnn i (by simp)
      rw [List.foldlM_cons, upsertOne_eq_T hi.1 hi.2]
      exact ih (fun j hj => hnn j (List.mem_cons_of_mem _ hj)) _

theorem upsert_instances_eq_T {items : List V1Inst}
    (hnn : ∀ i ∈ items, i.provider.isSome ∧ i.instance_id.isSome)
    (now : String) (store : List V1Row) :
    upsert_instances store items now = .ok (upsertT now store items) := by
  cases items with
  | nil => rfl
  | cons i l =>
      rw [upsert_instances]
      simpa using foldlM_upsertOne_eq hnn now store

theorem mkRow_provider_some {i : V1Inst} (h1 : i.provider.isSome) (now : String) :
    some ((mkRow i now).provider) = i.provider := by
  obtain ⟨p, hp⟩ := Option.isSome_iff_exists.mp h1
  simp [mkRow, hp]

/-- A key whose provider component differs from `p` is never found among the
rows of provider `p`. -/
theorem stateAt_provider_mismatch (store : List V1Row) (p : String) {k : IdKey}
    (hk1 : k.1 ≠ some p) : get_instance_states store p k = none := by
  simp only [get_instance_states]
  have hnone : ((store.filter (fun r => decide (r.provider = p))).reverse.find?
      (fun r => decide (rowKey r = k))) = none := by
    apply List.find?_eq_none.mpr
    intro x hx
    rw [List.mem_reverse, List.mem_filter] at hx
    have hxp : x.provider = p := of_decide_eq_true hx.2
    intro hc
    have hkx : rowKey x = k := of_decide_eq_true hc
    apply hk1
    rw [← hkx, rowKey, hxp]
  rw [hnone]

/-- Appending one row shadows the previous state exactly at its own key (the
state dict is built in row order, later rows win). -/
theorem stateAt_append_one (store : List V1Row) (r : V1Row) (p : String) (k : IdKey) :
    get_instance_states (store ++ [r]) p k =
      if r.provider = p ∧ rowKey r = k then r.state
      else get_instance_states store p k := by
  simp only [get_instance_states, List.filter_append]
  by_cases hrp : r.provider = p
  · have hfr : List.filter (fun row => decide (row.provider = p)) [r] = [r] := by
      simp [hrp]
    rw [hfr, List.reverse_append]
    simp only [List.reverse_cons, List.reverse_nil, List.nil_append, List.cons_append,
      List.nil_append]
    by_cases hkr : rowKey r = k
    · rw [if_pos ⟨hrp, hkr⟩]
      simp [List.find?, hkr]
    · rw [if_neg (fun h => hkr h.2)]
      simp [List.find?, hkr]
  · have hfr : List.filter (fun row => decide (row.provider = p)) [r] = [] := by
      simp [hrp]
    rw [hfr, List.append_nil, if_neg (fun h => hrp h.1)]

/-- Replacing the rows at one key does not change lookups at other keys. -/
theorem stateAt_map_replace (store : List V1Row) (r : V1Row) (p : String) {k : IdKey}
    (hne : rowKey r ≠ k) :
    get_instance_states (store.map fun s => if rowKey s = rowKey r then r else s) p k
      = get_instance_states store p k := by
  simp only [get_instance_states]
  have hfilter : (store.map fun s => if rowKey s = rowKey r then r else s).filter
      (fun row => decide (row.provider = p))
      = (store.filter (fun row => decide (row.provider = p))).map
        (fun s => if rowKey s = rowKey r then r else s) := by
    rw [List.filter_map]
    apply congrArg
    apply List.filter_congr
    intro s _
    by_cases hks : rowKey s = rowKey r
    · have hsp : s.provider = r.provider := by
        have := congrArg Prod.fst hks
        simpa [rowKey] using this
      simp [Function.comp, hks, hsp]
    · simp [Function.comp, hks]
  rw [hfilter, ← List.map_reverse]
  rw [find?_map_eq_of ?_]
  intro x _
  constructor
  · by_cases hkx : rowKey x = rowKey r
    · rw [if_pos hkx]
      have h1 : decide (rowKey r = k) = false := by simp [hne]
      have h2 : decide (rowKey x = k) = false := by simp [hkx ▸ hne]
      rw [h1, h2]
    · rw [if_neg hkx]
  · intro hx
    by_cases hkx : rowKey x = rowKey r
    · exfalso
      exact hne (hkx ▸ of_decide_eq_true hx)
    · rw [if_neg hkx]

/-- Replacing the rows at one key makes the lookup at that key return the new
row (provided the key was present). -/
theorem stateAt_map_replace_self (store : List V1Row) (r : V1Row) (p : String)
    (hex : ∃ s ∈ store, rowKey s = rowKey r) :
    get_instance_states (store.map fun s => if rowKey s = rowKey r then r else s) p
        (rowKey r)
      = if r.provider = p then r.state else none := by
  simp only [get_instance_states]
  by_cases hrp : r.provider = p
  · have hfind : ((store.map fun s => if rowKey s = rowKey r then r else s).filter
        (fun row => decide (row.provider = p))).reverse.find?
        (fun row => decide (rowKey row = rowKey r)) = some r := by
      apply find?_eq_some_of_all
      · obtain ⟨s0, hs0, hks0⟩ := hex
        refine ⟨r, ?_, by simp⟩
        rw [List.mem_reverse, List.mem_filter]
        refine ⟨List.mem_map.mpr ⟨s0, hs0, by simp [hks0]⟩, by simp [hrp]⟩
      · intro x hx hpx
        rw [List.mem_reverse, List.mem_filter] at hx
        obtain ⟨s, hs, hgs⟩ := List.mem_map.mp hx.1
        by_cases hks : rowKey s = rowKey r
        · rw [if_pos hks] at hgs; exact hgs.symm
        · rw [if_neg hks] at hgs
          exfalso
          apply hks
          rw [hgs]
          exact of_decide_eq_true hpx
    rw [hfind, if_pos hrp]
  · have hnone : ((store.map fun s => if rowKey s = rowKey r then r else s).filter
        (fun row => decide (row.provider = p))).reverse.find?
        (fun row => decide (rowKey row = rowKey r)) = none := by
      apply List.find?_eq_none.mpr
      intro x hx
      rw [List.mem_reverse, List.mem_filter] at hx
      have hxp : x.provider = p := of_decide_eq_true hx.2
      intro hc
      have hkx : rowKey x = rowKey r := of_decide_eq_true hc
      apply hrp
      have := congrArg Prod.fst hkx
      simp only [rowKey] at this
      rw [← Option.some.inj this, hxp]
    rw [hnone, if_neg hrp]

/-- One upsert statement, seen through the state dict: it changes the lookup
exactly at the item's own identity key. -/
theorem stateAt_upsertOneT {i : V1Inst} (h1 : i.provider.isSome)
    (h2 : i.instance_id.isSome) (now : String) (store : List V1Row) (p : String)
    (k : IdKey) :
    get_instance_states (upsertOneT now store i) p k
      = if k = instKey i then (if i.provider = some p then i.state else none)
        else get_instance_states store p k := by
  have hk : rowKey (mkRow i now) = instKey i := mkRow_rowKey h1 h2 now
  have hiff : ((mkRow i now).provider = p) ↔ (i.provider = some p) := by
    rw [← mkRow_provider_some h1 now]
    exact ⟨fun h => by rw [h], fun h => Option.some.inj h⟩
  rw [upsertOneT]
  by_cases hcond : ((mkRow i now).region.isSome &&
      store.any fun s => decide (rowKey s = rowKey (mkRow i now))) = true
  · rw [if_pos hcond]
    have hAB : (mkRow i now).region.isSome = true ∧
        (store.any fun s => decide (rowKey s = rowKey (mkRow i now))) = true := by
      simpa using hcond
    have hex : ∃ s ∈ store, rowKey s = rowKey (mkRow i now) := by
      obtain ⟨s0, hs0, hps0⟩ := List.any_eq_true.mp hAB.2
      exact ⟨s0, hs0, of_decide_eq_true hps0⟩
    by_cases hki : k = instKey i
    · subst hki
      rw [← hk, stateAt_map_replace_self store _ p hex, if_pos rfl]
      by_cases hp : i.provider = some p
      · rw [if_pos (hiff.mpr hp), if_pos hp]; rfl
      · rw [if_neg (fun h => hp (hiff.mp h)), if_neg hp]
    · rw [stateAt_map_replace store _ p (by rw [hk]; exact fun h => hki h.symm),
        if_neg hki]
  · rw [if_neg hcond, stateAt_append_one]
    by_cases hki : k = instKey i
    · subst hki
      by_cases hp : i.provider = some p
      · rw [if_pos ⟨hiff.mpr hp, hk⟩, if_pos rfl, if_pos hp]; rfl
      · rw [if_neg (fun h => hp (hiff.mp h.1)), if_pos rfl, if_neg hp]
        apply stateAt_provider_mismatch
        show (instKey i).1 ≠ some p
        exact hp
    · rw [if_neg (fun h => hki (hk ▸ h.2).symm), if_neg hki]

/-- The state dict after a whole upsert batch: the last item with a given
identity key wins; keys not in the batch keep the previous state. -/
theorem stateAt_upsertT {items : List V1Inst}
    (hnn : ∀ i ∈ items, i.provider.isSome ∧ i.instance_id.isSome)
    (now : String) (store : List V1Row) (p : String) (k : IdKey) :
    get_instance_states (upsertT now store items) p k
      = match items.reverse.find? (fun j => decide (instKey j = k)) with
        | some j => if j.provider = some p then j.state else none
        | none => get_instance_states store p k := by
  induction items generalizing store with
  | nil => simp [upsertT]
  | cons i l ih =>
      have hi := hnn i (by simp)
      have htail : ∀ j ∈ l, j.provider.isSome ∧ j.instance_id.isSome :=
        fun j hj => hnn j (List.mem_cons_of_mem _ hj)
      rw [show upsertT now store (i :: l) = upsertT now (upsertOneT now store i) l from rfl]
      rw [ih htail (upsertOneT now store i)]
      rw [List.reverse_cons, List.find?_append]
      cases hf : l.reverse.find? (fun j => decide (instKey j = k)) with
      | some j => simp
      | none =>
          simp only [Option.none_or]
          by_cases hki : instKey i = k
          · have hfi : List.find? (fun j => decide (instKey j = k)) [i] = some i := by
              simp [List.find?, hki]
            rw [hfi, stateAt_upsertOneT hi.1 hi.2 now store p k, if_pos hki.symm]
          · have hfi : List.find? (fun j => decide (instKey j = k)) [i] = none := by
              simp [List.find?, hki]
            rw [hfi, stateAt_upsertOneT hi.1 hi.2 now store p k,
              if_neg (fun h => hki h.symm)]

/-! ## V1 row multiplicity (duplicate-identity handling) -/

/-- The stored rows carrying one identity key. -/
def rowsWith (store : List V1Row) (k : IdKey) : List V1Row :=
  store.filter (fun r => decide (rowKey r = k))

/-- The primary-key invariant of the sqlite `instances` table: at most one
row per identity key with a non-`NULL` region (rows with `NULL` region are
pairwise distinct for the unique index and may repeat). -/
def keyUnique (store : List V1Row) : Prop :=
  ∀ k : IdKey, k.2.2.isSome → (rowsWith store k).length ≤ 1

theorem mkRow_region (i : V1Inst) (now : String) : (mkRow i now).region = i.region := rfl

theorem rowsWith_upsertOneT_self {i : V1Inst} (h1 : i.provider.isSome)
    (h2 : i.instance_id.isSome) (now : String) (store : List V1Row)
    (hreg : i.region.isSome)
    (hu : (rowsWith store (instKey i)).length ≤ 1) :
    rowsWith (upsertOneT now store i) (instKey i) = [mkRow i now] := by
  have hk : rowKey (mkRow i now) = instKey i := mkRow_rowKey h1 h2 now
  rw [upsertOneT]
  by_cases hany : (store.any fun s => decide (rowKey s = rowKey (mkRow i now))) = true
  · have hcond : ((mkRow i now).region.isSome &&
        store.any fun s => decide (rowKey s = rowKey (mkRow i now))) = true := by
      rw [mkRow_region, hreg, hany]; rfl
    rw [if_pos hcond]
    have hmap : rowsWith (store.map fun s =>
          if rowKey s = rowKey (mkRow i now) then mkRow i now else s) (instKey i)
        = (rowsWith store (instKey i)).map
          (fun s => if rowKey s = rowKey (mkRow i now) then mkRow i now else s) := by
      rw [rowsWith, List.filter_map]
      apply congrArg
      rw [rowsWith]
      apply List.filter_congr
      intro s _
      by_cases hks : rowKey s = rowKey (mkRow i now)
      · simp [Function.comp, hks, hk]
      · simp [Function.comp, hks]
    rw [hmap]
    obtain ⟨s0, hs0, hps0⟩ := List.any_eq_true.mp hany
    have hs0k : rowKey s0 = rowKey (mkRow i now) := of_decide_eq_true hps0
    have hs0m : s0 ∈ rowsWith store (instKey i) := by
      rw [rowsWith, List.mem_filter]
      exact ⟨hs0, by simp [hs0k, hk]⟩
    match hrw : rowsWith store (instKey i) with
    | [] => rw [hrw] at hs0m; cases hs0m
    | [s1] =>
        rw [hrw] at hs0m
        have : s1 = s0 := by
          cases hs0m with
          | head => rfl
          | tail _ h => cases h
        subst this
        simp [hs0k]
    | s1 :: s2 :: t => rw [hrw] at hu; simp at hu
  · have hcond : ((mkRow i now).region.isSome &&
        store.any fun s => decide (rowKey s = rowKey (mkRow i now))) = false := by
      simp only [Bool.not_eq_true] at hany
      rw [hany, Bool.and_false]
    rw [if_neg (by rw [hcond]; simp)]
    rw [rowsWith, List.filter_append]
    have hstore : store.filter (fun r => decide (rowKey r = instKey i)) = [] := by
      apply List.filter_eq_nil_iff.mpr
      intro s hs
      simp only [Bool.not_eq_true] at hany ⊢
      have := List.any_eq_false.mp hany s hs
      simpa [hk] using this
    rw [hstore]
    simp [hk]

theorem rowsWith_upsertOneT_other {i : V1Inst} (h1 : i.provider.isSome)
    (h2 : i.instance_id.isSome) (now : String) (store : List V1Row)
    {k : IdKey} (hki : k ≠ instKey i) :
    rowsWith (upsertOneT now store i) k = rowsWith store k := by
  have hk : rowKey (mkRow i now) = instKey i := mkRow_rowKey h1 h2 now
  rw [upsertOneT]
  by_cases hcond : ((mkRow i now).region.isSome &&
      store.any fun s => decide (rowKey s = rowKey (mkRow i now))) = true
  · rw [if_pos hcond, rowsWith, rowsWith]
    rw [filter_map_eq_of ?_]
    intro s _
    constructor
    · by_cases hks : rowKey s = rowKey (mkRow i now)
      · rw [if_pos hks]
        have h1' : decide (rowKey (mkRow i now) = k) = false := by
          simp [hk]; exact fun h => hki h.symm
        have h2' : decide (rowKey s = k) = false := by
          rw [hks]; exact h1'
        rw [h1', h2']
      · rw [if_neg hks]
    · intro hs
      by_cases hks : rowKey s = rowKey (mkRow i now)
      · exfalso
        apply hki
        rw [← hk, ← hks]
        exact (of_decide_eq_true hs).symm
      · rw [if_neg hks]
  · rw [if_neg hcond, rowsWith, rowsWith, List.filter_append]
    have : List.filter (fun r => decide (rowKey r = k)) [mkRow i now] = [] := by
      simp [hk]
      exact fun h => hki h.symm
    rw [this, List.append_nil]

theorem keyUnique_upsertOneT {i : V1Inst} (h1 : i.provider.isSome)
    (h2 : i.instance_id.isSome) (now : String) {store : List V1Row}
    (hu : keyUnique store) : keyUnique (upsertOneT now store i) := by
  intro k hkreg
  by_cases hki : k = instKey i
  · subst hki
    have hreg : i.region.isSome := hkreg
    rw [rowsWith_upsertOneT_self h1 h2 now store hreg (hu _ hkreg)]
    simp
  · rw [rowsWith_upsertOneT_other h1 h2 now store hki]
    exact hu k hkreg

theorem keyUnique_upsertT {items : List V1Inst}
    (hnn : ∀ i ∈ items, i.provider.isSome ∧ i.instance_id.isSome)
    (now : String) {store : List V1Row} (hu : keyUnique store) :
    keyUnique (upsertT now store items) := by
  induction items generalizing store with
  | nil => exact hu
  | cons i l ih =>
      have hi := hnn i (by simp)
      exact ih (fun j hj => hnn j (List.mem_cons_of_mem _ hj))
        (keyUnique_upsertOneT hi.1 hi.2 now hu)

/-- After a whole upsert batch, a non-`NULL`-region identity key that occurs
in the batch is carried by exactly the row of its **last** occurrence; other
keys keep their previous rows. -/
theorem rowsWith_upsertT {items : List V1Inst}
    (hnn : ∀ i ∈ items, i.provider.isSome ∧ i.instance_id.isSome)
    (now : String) {store : List V1Row} (hu : keyUnique store)
    {k : IdKey} (hkreg : k.2.2.isSome) :
    rowsWith (upsertT now store items) k
      = match items.reverse.find? (fun j => decide (instKey j = k)) with
        | some j => [mkRow j now]
        | none => rowsWith store k := by
  induction items generalizing store with
  | nil => simp [upsertT]
  | cons i l ih =>
      have hi := hnn i (by simp)
      have htail : ∀ j ∈ l, j.provider.isSome ∧ j.instance_id.isSome :=
        fun j hj => hnn j (List.mem_cons_of_mem _ hj)
      rw [show upsertT now store (i :: l) = upsertT now (upsertOneT now store i) l from rfl]
      rw [ih htail (keyUnique_upsertOneT hi.1 hi.2 now hu)]
      rw [List.reverse_cons, List.find?_append]
      cases hf : l.reverse.find? (fun j => decide (instKey j = k)) with
      | some j => simp
      | none =>
          simp only [Option.none_or]
          by_cases hki : instKey i = k
          · have hfi : List.find? (fun j => decide (instKey j = k)) [i] = some i := by
              simp [List.find?, hki]
            rw [hfi]
            have hreg : i.region.isSome := by
              have : (instKey i).2.2.isSome := by rw [hki]; exact hkreg
              exact this
            rw [← hki]
            exact rowsWith_upsertOneT_self hi.1 hi.2 now store hreg
              (hu _ (by rw [hki]; exact hkreg))
          · have hfi : List.find? (fun j => decide (instKey j = k)) [i] = none := by
              simp [List.find?, hki]
            rw [hfi]
            exact rowsWith_upsertOneT_other hi.1 hi.2 now store
              (fun h => hki h.symm)

/-! ## V1 run_sync reduction -/

/-- Membership in the `state_changes` list, characterized: an (instance,
previous, new) triple is collected exactly when the identity is present in
the previous state dict, the new state is set, both states are comparable
and they differ (the truthiness guards of the code are subsumed by
comparability, since `"running"` and `"stopped"` are nonempty). -/
theorem mem_stateChangesFor (existing : IdKey → Option String)
    (items : List V1Inst) (inst : V1Inst) (ps ns : String) :
    (inst, ps, ns) ∈ stateChangesFor existing items ↔
      inst ∈ items ∧ existing (instKey inst) = some ps ∧ inst.state = some ns ∧
      (ps = "running" ∨ ps = "stopped") ∧ (ns = "running" ∨ ns = "stopped") ∧
      ps ≠ ns := by
  rw [stateChangesFor, List.mem_filterMap]
  constructor
  · rintro ⟨a, ha, hfa⟩
    rcases hex : existing (instKey a) with - | p₀
    · rw [hex] at hfa; cases hfa
    · rcases hst : a.state with - | n₀
      · rw [hex, hst] at hfa; cases hfa
      · rw [hex, hst] at hfa
        dsimp only at hfa
        by_cases hcond : p₀ ≠ "" ∧ n₀ ≠ "" ∧ p₀ ≠ n₀ ∧
            (p₀ = "running" ∨ p₀ = "stopped") ∧ (n₀ = "running" ∨ n₀ = "stopped")
        · rw [if_pos hcond, Option.some.injEq, Prod.mk.injEq, Prod.mk.injEq] at hfa
          obtain ⟨rfl, rfl, rfl⟩ := hfa
          exact ⟨ha, hex, hst, hcond.2.2.2.1, hcond.2.2.2.2, hcond.2.2.1⟩
        · rw [if_neg hcond] at hfa; cases hfa
  · rintro ⟨hmem, hex, hst, hps, hns, hne⟩
    refine ⟨inst, hmem, ?_⟩
    rw [hex, hst]
    dsimp only
    rw [if_pos ?_]
    refine ⟨?_, ?_, hne, hps, hns⟩
    · rcases hps with rfl | rfl <;> simp
    · rcases hns with rfl | rfl <;> simp

/-- The `results` dict of a run where only AWS has credentials and its fetch
succeeds. -/
def awsOnlyResults (n : Nat) : List (String × ProviderResult) :=
  [("aws", { connected := true, count := some n }), ("azure", { connected := false })]

/-- Evaluation of `run_sync` in the aws-only configuration: the store becomes
the upsert of the fetched items, transitions are computed against the
**pre-sync** store, and the log entry is appended exactly when the log write
succeeds. -/
theorem run_sync_aws_only (store0 : List V1Row) (logs0 : List V1LogEntry)
    (creds : List (String × String)) (items : List V1Inst)
    (source now : String) (dur : Nat) (logOk : Bool)
    (hcreds : creds ≠ [])
    (hnn : ∀ i ∈ items, i.provider.isSome ∧ i.instance_id.isSome) :
    run_sync (fun p => if p = "aws" then some creds else none)
        (fun _ _ => .ok items) ⟨store0, logs0⟩ source now dur logOk =
      { store := upsertT now store0 items,
        logs := if logOk then logs0 ++
          [{ source := source, started_at := now, finished_at := now,
             duration_ms := dur, total := items.length,
             results := awsOnlyResults items.length }] else logs0,
        results := awsOnlyResults items.length,
        total := items.length,
        alerts := stateChangesFor (get_instance_states store0 "aws") items } := by
  have hne : creds.isEmpty = false := by
    cases creds with
    | nil => exact absurd rfl hcreds
    | cons a l => rfl
  have hstep1 : providerStep (fun p => if p = "aws" then some creds else none)
      (fun _ _ => .ok items) now
      { store := store0, results := [], total := 0, alerts := [] } "aws" =
      { store := upsertT now store0 items,
        results := [("aws", { connected := true, count := some items.length })],
        total := items.length,
        alerts := stateChangesFor (get_instance_states store0 "aws") items } := by
    rw [providerStep]
    simp only [if_pos rfl, hne, hasConnector]
    rw [upsert_instances_eq_T hnn now store0]
    simp [hcreds]
  have hstep2 : providerStep (fun p => if p = "aws" then some creds else none)
      (fun _ _ => .ok items) now
      { store := upsertT now store0 items,
        results := [("aws", { connected := true, count := some items.length })],
        total := items.length,
        alerts := stateChangesFor (get_instance_states store0 "aws") items } "azure" =
      { store := upsertT now store0 items,
        results := awsOnlyResults items.length,
        total := items.length,
        alerts := stateChangesFor (get_instance_states store0 "aws") items } := by
    rw [providerStep]
    have : (if ("azure" : String) = "aws" then some creds else none) = none :=
      if_neg (by decide)
    simp only [this]
    rfl
  rw [run_sync]
  simp only [List.foldl_cons, List.foldl_nil]
  rw [hstep1, hstep2]

/-! ## V2 orchestration lemmas -/

/-- The items of a fetch outcome (empty on connector failure). -/
def okItems : Except String (List V2Inst) → List V2Inst
  | .ok l => l
  | .error _ => []

/-- The per-account error message recorded by the orchestrator. -/
def errLabel (a : AccountRow) (e : String) : String :=
  s!"Account {accountLabel a}: {e}"

theorem mem_ite_singleton {r : Rec} {c : Prop} [Decidable c] {x : Rec}
    (h : r ∈ (if c then [x] else [])) : r = x := by
  split at h
  · simpa using h
  · simp at h

theorem recsForInstance_fields (now : String) (i : V2Inst) :
    ∀ r ∈ recsForInstance now i,
      r.status = "open" ∧ r.cloud_account_id = some i.cloud_account_id := by
  intro r hr
  rw [recsForInstance] at hr
  rcases List.mem_append.mp hr with h | h
  · rcases List.mem_append.mp h with h | h
    · rw [mem_ite_singleton h]; exact ⟨rfl, rfl⟩
    · rw [mem_ite_singleton h]; exact ⟨rfl, rfl⟩
  · rw [mem_ite_singleton h]; exact ⟨rfl, rfl⟩

theorem assignIds_fields {rs : List Rec} {fresh : Nat → String} {k : Nat} :
    ∀ r ∈ assignIds fresh k rs,
      ∃ r0 ∈ rs, r.status = r0.status ∧ r.cloud_account_id = r0.cloud_account_id := by
  induction rs generalizing k with
  | nil => intro r hr; cases hr
  | cons r0 t ih =>
      intro r hr
      rcases List.mem_cons.mp hr with rfl | hr
      · exact ⟨r0, by simp, rfl, rfl⟩
      · obtain ⟨r1, hr1, h⟩ := ih r hr
        exact ⟨r1, List.mem_cons_of_mem _ hr1, h⟩

theorem genRecs_fields (fresh : Nat → String) (now : String) (items : List V2Inst) :
    ∀ r ∈ generate_recommendations fresh now items,
      r.status = "open" ∧ ∃ i ∈ items, r.cloud_account_id = some i.cloud_account_id := by
  intro r hr
  rw [generate_recommendations] at hr
  obtain ⟨r0, hr0, hst, hcid⟩ := assignIds_fields r hr
  obtain ⟨i, hi, hri⟩ := List.mem_flatMap.mp hr0
  have h := recsForInstance_fields now i r0 hri
  exact ⟨hst.trans h.1, i, hi, hcid.trans h.2⟩

theorem syncAccount_instances_err {fetch : AccountRow → Except String (List V2Inst)}
    {fresh : String → Nat → String} {now : String} {db : V2DB} {a : AccountRow}
    {e : String} (hf : fetch a = .error e) :
    (syncAccount fetch fresh now db a).db.instances = db.instances := by
  rw [syncAccount, hf]

theorem syncAccount_recs_err {fetch : AccountRow → Except String (List V2Inst)}
    {fresh : String → Nat → String} {now : String} {db : V2DB} {a : AccountRow}
    {e : String} (hf : fetch a = .error e) :
    (syncAccount fetch fresh now db a).db.recommendations = db.recommendations := by
  rw [syncAccount, hf]

theorem syncAccount_instances_ok {fetch : AccountRow → Except String (List V2Inst)}
    {fresh : String → Nat → String} {now : String} {db : V2DB} {a : AccountRow}
    {items : List V2Inst} (hf : fetch a = .ok items) :
    (syncAccount fetch fresh now db a).db.instances
      = db.instances.filter (fun i => decide (i.cloud_account_id ≠ a.id)) ++ items := by
  rw [syncAccount, hf]

theorem syncAccount_recs_ok {fetch : AccountRow → Except String (List V2Inst)}
    {fresh : String → Nat → String} {now : String} {db : V2DB} {a : AccountRow}
    {items : List V2Inst} (hf : fetch a = .ok items) :
    (syncAccount fetch fresh now db a).db.recommendations
      = db.recommendations.filter (fun r => decide (r.cloud_account_id ≠ some a.id))
        ++ generate_recommendations (fresh a.id) now items := by
  rw [syncAccount, hf]

theorem syncAccount_err_eq {fetch : AccountRow → Except String (List V2Inst)}
    {fresh : String → Nat → String} {now : String} {db : V2DB} {a : AccountRow} :
    (syncAccount fetch fresh now db a).err
      = match fetch a with
        | .ok _ => none
        | .error e => some (errLabel a e) := by
  rw [syncAccount]
  cases fetch a <;> rfl

/-! ### `find?` through `updateFirst` -/

theorem updateFirst_find?_self {α : Type} (p : α → Prop) [DecidablePred p]
    (f : α → α) (hf : ∀ x, p (f x) ↔ p x) (l : List α) :
    (updateFirst p f l).find? (fun x => decide (p x))
      = (l.find? (fun x => decide (p x))).map f := by
  induction l with
  | nil => rfl
  | cons x xs ih =>
      by_cases hx : p x
      · rw [updateFirst, if_pos hx]
        have h1 : decide (p (f x)) = true := decide_eq_true ((hf x).mpr hx)
        have h2 : decide (p x) = true := decide_eq_true hx
        simp [List.find?, h1, h2]
      · rw [updateFirst, if_neg hx]
        have h2 : decide (p x) = false := decide_eq_false hx
        simp [List.find?, h2, ih]

theorem updateFirst_find?_congr {α : Type} (p q : α → Prop) [DecidablePred p]
    [DecidablePred q] (f : α → α) (hdisj : ∀ x, q x → ¬ p x)
    (hf : ∀ x, q (f x) ↔ q x) (l : List α) :
    (updateFirst p f l).find? (fun x => decide (q x))
      = l.find? (fun x => decide (q x)) := by
  induction l with
  | nil => rfl
  | cons x xs ih =>
      by_cases hx : p x
      · rw [updateFirst, if_pos hx]
        have hqx : ¬ q x := fun h => hdisj x h hx
        have h1 : decide (q (f x)) = false := decide_eq_false (fun h => hqx ((hf x).mp h))
        have h2 : decide (q x) = false := decide_eq_false hqx
        simp [List.find?, h1, h2]
      · rw [updateFirst, if_neg hx]
        by_cases hqx : q x
        · simp [List.find?, decide_eq_true hqx]
        · simp [List.find?, decide_eq_false hqx, ih]

/-- Shorthand: the first account document with a given id. -/
def findAcct (db : V2DB) (x : String) : Option AccountRow :=
  db.cloud_accounts.find? (fun r => decide (r.id = x))

theorem updateFirstAcct_find?_self (y : String) (f : AccountRow → AccountRow)
    (hid : ∀ r, (f r).id = r.id) (l : List AccountRow) :
    (updateFirst (fun r => r.id = y) f l).find? (fun r => decide (r.id = y))
      = (l.find? (fun r => decide (r.id = y))).map f := by
  induction l with
  | nil => rfl
  | cons x xs ih =>
      by_cases hx : x.id = y
      · rw [updateFirst, if_pos hx]
        have h1 : decide ((f x).id = y) = true := decide_eq_true ((hid x).symm ▸ hx)
        have h2 : decide (x.id = y) = true := decide_eq_true hx
        simp [List.find?, h1, h2]
      · rw [updateFirst, if_neg hx]
        have h2 : decide (x.id = y) = false := decide_eq_false hx
        simp [List.find?, h2, ih]

theorem updateFirstAcct_find?_ne {x y : String} (hxy : y ≠ x)
    (f : AccountRow → AccountRow) (hid : ∀ r, (f r).id = r.id)
    (l : List AccountRow) :
    (updateFirst (fun r => r.id = y) f l).find? (fun r => decide (r.id = x))
      = l.find? (fun r => decide (r.id = x)) := by
  induction l with
  | nil => rfl
  | cons z zs ih =>
      by_cases hz : z.id = y
      · rw [updateFirst, if_pos hz]
        have h1 : decide ((f z).id = x) = false :=
          decide_eq_false (fun h => hxy (hz ▸ (hid z) ▸ h))
        have h2 : decide (z.id = x) = false :=
          decide_eq_false (fun h => hxy (hz ▸ h))
        simp [List.find?, h1, h2]
      · rw [updateFirst, if_neg hz]
        by_cases hzx : z.id = x
        · simp [List.find?, decide_eq_true hzx]
        · simp [List.find?, decide_eq_false hzx, ih]

/-- The `status=syncing` update applied at the start of each account step. -/
def syncingUpd (now : String) (r : AccountRow) : AccountRow :=
  { r with status := "syncing", last_checked_at := some now }

/-- The `status=connected` update applied after a successful step. -/
def connectedUpd (now : String) (n : Nat) (r : AccountRow) : AccountRow :=
  { r with status := "connected", last_sync_at := some now, last_error := none, instance_count := n }

/-- The `status=error` update applied after a failed step. -/
def errorUpd (e : String) (r : AccountRow) : AccountRow :=
  { r with status := "error", last_error := some e }

/-- The composite account update of a successful sync step. -/
def okUpdate (now : String) (n : Nat) (r : AccountRow) : AccountRow :=
  { r with status := "connected", last_checked_at := some now, last_sync_at := some now, last_error := none, instance_count := n }

/-- The composite account update of a failed sync step. -/
def errUpdate (now e : String) (r : AccountRow) : AccountRow :=
  { r with status := "error", last_checked_at := some now, last_error := some e }

theorem syncAccount_accounts_ok {fetch : AccountRow → Except String (List V2Inst)}
    {fresh : String → Nat → String} {now : String} {db : V2DB} {a : AccountRow}
    {items : List V2Inst} (hf : fetch a = .ok items) :
    (syncAccount fetch fresh now db a).db.cloud_accounts
      = updateFirst (fun r => r.id = a.id) (connectedUpd now items.length)
          (updateFirst (fun r => r.id = a.id) (syncingUpd now) db.cloud_accounts) := by
  rw [syncAccount, hf]
  rfl

theorem syncAccount_accounts_err {fetch : AccountRow → Except String (List V2Inst)}
    {fresh : String → Nat → String} {now : String} {db : V2DB} {a : AccountRow}
    {e : String} (hf : fetch a = .error e) :
    (syncAccount fetch fresh now db a).db.cloud_accounts
      = updateFirst (fun r => r.id = a.id) (errorUpd e)
          (updateFirst (fun r => r.id = a.id) (syncingUpd now) db.cloud_accounts) := by
  rw [syncAccount, hf]
  rfl

theorem syncAccount_find_ne {fetch : AccountRow → Except String (List V2Inst)}
    {fresh : String → Nat → String} {now : String} {db : V2DB} {a : AccountRow}
    {x : String} (hx : a.id ≠ x) :
    findAcct (syncAccount fetch fresh now db a).db x = findAcct db x := by
  cases hf : fetch a with
  | ok items =>
      rw [findAcct, findAcct, syncAccount_accounts_ok hf,
        updateFirstAcct_find?_ne hx (connectedUpd now items.length) (fun r => rfl) _,
        updateFirstAcct_find?_ne hx (syncingUpd now) (fun r => rfl) _]
  | error e =>
      rw [findAcct, findAcct, syncAccount_accounts_err hf,
        updateFirstAcct_find?_ne hx (errorUpd e) (fun r => rfl) _,
        updateFirstAcct_find?_ne hx (syncingUpd now) (fun r => rfl) _]

theorem syncAccount_find_self_ok {fetch : AccountRow → Except String (List V2Inst)}
    {fresh : String → Nat → String} {now : String} {db : V2DB} {a : AccountRow}
    {items : List V2Inst} (hf : fetch a = .ok items) :
    findAcct (syncAccount fetch fresh now db a).db a.id
      = (findAcct db a.id).map (okUpdate now items.length) := by
  rw [findAcct, findAcct, syncAccount_accounts_ok hf,
    updateFirstAcct_find?_self a.id (connectedUpd now items.length) (fun r => rfl) _,
    updateFirstAcct_find?_self a.id (syncingUpd now) (fun r => rfl) _,
    Option.map_map]
  rfl

theorem syncAccount_find_self_err {fetch : AccountRow → Except String (List V2Inst)}
    {fresh : String → Nat → String} {now : String} {db : V2DB} {a : AccountRow}
    {e : String} (hf : fetch a = .error e) :
    findAcct (syncAccount fetch fresh now db a).db a.id
      = (findAcct db a.id).map (errUpdate now e) := by
  rw [findAcct, findAcct, syncAccount_accounts_err hf,
    updateFirstAcct_find?_self a.id (errorUpd e) (fun r => rfl) _,
    updateFirstAcct_find?_self a.id (syncingUpd now) (fun r => rfl) _,
    Option.map_map]
  rfl

/-! ### Per-account slices through the loop -/

theorem filter_ne_then_eq {l : List V2Inst} {aid x : String} (hx : aid ≠ x) :
    (l.filter (fun i => decide (i.cloud_account_id ≠ aid))).filter
        (fun i => decide (i.cloud_account_id = x))
      = l.filter (fun i => decide (i.cloud_account_id = x)) := by
  rw [List.filter_filter]
  apply List.filter_congr
  intro i _
  by_cases h : i.cloud_account_id = x
  · have hne : i.cloud_account_id ≠ aid := by
      rw [h]; exact fun hh => hx hh.symm
    simp [h, hne]
    exact fun hh => hx hh.symm
  · simp [h]

theorem filter_ne_self_eq {l : List V2Inst} {aid : String} :
    (l.filter (fun i => decide (i.cloud_account_id ≠ aid))).filter
        (fun i => decide (i.cloud_account_id = aid)) = [] := by
  rw [List.filter_filter]
  apply List.filter_eq_nil_iff.mpr
  intro i _
  by_cases h : i.cloud_account_id = aid <;> simp [h]

theorem filterR_ne_then_eq {l : List Rec} {aid x : String} (hx : aid ≠ x) :
    (l.filter (fun r => decide (r.cloud_account_id ≠ some aid))).filter
        (fun r => decide (r.cloud_account_id = some x))
      = l.filter (fun r => decide (r.cloud_account_id = some x)) := by
  rw [List.filter_filter]
  apply List.filter_congr
  intro r _
  by_cases h : r.cloud_account_id = some x
  · have hne : r.cloud_account_id ≠ some aid := by
      rw [h]; exact fun hh => hx (Option.some.inj hh).symm
    simp [h, hne]
    exact fun hh => hx hh.symm
  · simp [h]

theorem filterR_ne_self_eq {l : List Rec} {aid : String} :
    (l.filter (fun r => decide (r.cloud_account_id ≠ some aid))).filter
        (fun r => decide (r.cloud_account_id = some aid)) = [] := by
  rw [List.filter_filter]
  apply List.filter_eq_nil_iff.mpr
  intro r _
  by_cases h : r.cloud_account_id = some aid <;> simp [h]

theorem syncAccount_instances_filter_ne {fetch : AccountRow → Except String (List V2Inst)}
    {fresh : String → Nat → String} {now : String} {db : V2DB} {a : AccountRow}
    {x : String} (hx : a.id ≠ x)
    (htag : ∀ i ∈ okItems (fetch a), i.cloud_account_id ≠ x) :
    (syncAccount fetch fresh now db a).db.instances.filter
        (fun i => decide (i.cloud_account_id = x))
      = db.instances.filter (fun i => decide (i.cloud_account_id = x)) := by
  cases hf : fetch a with
  | error e => rw [syncAccount_instances_err hf]
  | ok items =>
      rw [syncAccount_instances_ok hf, List.filter_append, filter_ne_then_eq hx]
      have hnil : items.filter (fun i => decide (i.cloud_account_id = x)) = [] := by
        apply List.filter_eq_nil_iff.mpr
        intro i hi
        have := htag i (by rw [hf]; exact hi)
        simp [this]
      rw [hnil, List.append_nil]

theorem syncAccount_instances_filter_self {fetch : AccountRow → Except String (List V2Inst)}
    {fresh : String → Nat → String} {now : String} {db : V2DB} {a : AccountRow}
    {items : List V2Inst} (hf : fetch a = .ok items)
    (htag : ∀ i ∈ items, i.cloud_account_id = a.id) :
    (syncAccount fetch fresh now db a).db.instances.filter
        (fun i => decide (i.cloud_account_id = a.id)) = items := by
  rw [syncAccount_instances_ok hf, List.filter_append, filter_ne_self_eq,
    List.nil_append]
  exact List.filter_eq_self.mpr (fun i hi => decide_eq_true (htag i hi))

theorem syncAccount_recs_filter_ne {fetch : AccountRow → Except String (List V2Inst)}
    {fresh : String → Nat → String} {now : String} {db : V2DB} {a : AccountRow}
    {x : String} (hx : a.id ≠ x)
    (htag : ∀ i ∈ okItems (fetch a), i.cloud_account_id = a.id) :
    (syncAccount fetch fresh now db a).db.recommendations.filter
        (fun r => decide (r.cloud_account_id = some x))
      = db.recommendations.filter (fun r => decide (r.cloud_account_id = some x)) := by
  cases hf : fetch a with
  | error e => rw [syncAccount_recs_err hf]
  | ok items =>
      rw [syncAccount_recs_ok hf, List.filter_append, filterR_ne_then_eq hx]
      have hnil : (generate_recommendations (fresh a.id) now items).filter
          (fun r => decide (r.cloud_account_id = some x)) = [] := by
        apply List.filter_eq_nil_iff.mpr
        intro r hr
        obtain ⟨-, i, hi, hci⟩ := genRecs_fields (fresh a.id) now items r hr
        have hia : i.cloud_account_id = a.id := htag i (by rw [hf]; exact hi)
        have : r.cloud_account_id ≠ some x := by
          rw [hci, hia]
          exact fun hh => hx (Option.some.inj hh)
        simp [this]
      rw [hnil, List.append_nil]

theorem syncAccount_recs_filter_self {fetch : AccountRow → Except String (List V2Inst)}
    {fresh : String → Nat → String} {now : String} {db : V2DB} {a : AccountRow}
    {items : List V2Inst} (hf : fetch a = .ok items)
    (htag : ∀ i ∈ items, i.cloud_account_id = a.id) :
    (syncAccount fetch fresh now db a).db.recommendations.filter
        (fun r => decide (r.cloud_account_id = some a.id))
      = generate_recommendations (fresh a.id) now items := by
  rw [syncAccount_recs_ok hf, List.filter_append, filterR_ne_self_eq,
    List.nil_append]
  apply List.filter_eq_self.mpr
  intro r hr
  obtain ⟨-, i, hi, hci⟩ := genRecs_fields (fresh a.id) now items r hr
  exact decide_eq_true (by rw [hci, htag i hi])

theorem syncLoop_instances_frame {fetch : AccountRow → Except String (List V2Inst)}
    {fresh : String → Nat → String} {now : String} {x : String}
    {accs : List AccountRow}
    (hall : ∀ a ∈ accs, a.id ≠ x ∧ ∀ i ∈ okItems (fetch a), i.cloud_account_id ≠ x)
    (db : V2DB) :
    (syncLoop fetch fresh now db accs).1.instances.filter
        (fun i => decide (i.cloud_account_id = x))
      = db.instances.filter (fun i => decide (i.cloud_account_id = x)) := by
  induction accs generalizing db with
  | nil => rfl
  | cons a rest ih =>
      have ha := hall a (by simp)
      rw [syncLoop]
      exact (ih (fun b hb => hall b (List.mem_cons_of_mem _ hb)) _).trans
        (syncAccount_instances_filter_ne ha.1 ha.2)

theorem syncLoop_recs_frame {fetch : AccountRow → Except String (List V2Inst)}
    {fresh : String → Nat → String} {now : String} {x : String}
    {accs : List AccountRow}
    (hall : ∀ a ∈ accs, a.id ≠ x ∧ ∀ i ∈ okItems (fetch a), i.cloud_account_id = a.id)
    (db : V2DB) :
    (syncLoop fetch fresh now db accs).1.recommendations.filter
        (fun r => decide (r.cloud_account_id = some x))
      = db.recommendations.filter (fun r => decide (r.cloud_account_id = some x)) := by
  induction accs generalizing db with
  | nil => rfl
  | cons a rest ih =>
      have ha := hall a (by simp)
      rw [syncLoop]
      exact (ih (fun b hb => hall b (List.mem_cons_of_mem _ hb)) _).trans
        (syncAccount_recs_filter_ne ha.1 ha.2)

theorem syncLoop_find_frame {fetch : AccountRow → Except String (List V2Inst)}
    {fresh : String → Nat → String} {now : String} {x : String}
    {accs : List AccountRow} (hall : ∀ a ∈ accs, a.id ≠ x) (db : V2DB) :
    findAcct (syncLoop fetch fresh now db accs).1 x = findAcct db x := by
  induction accs generalizing db with
  | nil => rfl
  | cons a rest ih =>
      rw [syncLoop]
      exact (ih (fun b hb => hall b (List.mem_cons_of_mem _ hb)) _).trans
        (syncAccount_find_ne (hall a (by simp)))

theorem syncLoop_instances_of_mem_ok {fetch : AccountRow → Except String (List V2Inst)}
    {fresh : String → Nat → String} {now : String} {a : AccountRow}
    {items : List V2Inst} {accs : List AccountRow}
    (ha : a ∈ accs) (hpw : accs.Pairwise (fun b c => b.id ≠ c.id))
    (hf : fetch a = .ok items)
    (htagall : ∀ b ∈ accs, ∀ i ∈ okItems (fetch b), i.cloud_account_id = b.id)
    (db : V2DB) :
    (syncLoop fetch fresh now db accs).1.instances.filter
        (fun i => decide (i.cloud_account_id = a.id)) = items := by
  induction accs generalizing db with
  | nil => cases ha
  | cons b rest ih =>
      obtain ⟨hhead, htail⟩ := List.pairwise_cons.mp hpw
      rw [syncLoop]
      rcases List.mem_cons.mp ha with rfl | ha'
      · have hframe : ∀ c ∈ rest, c.id ≠ a.id ∧
            ∀ i ∈ okItems (fetch c), i.cloud_account_id ≠ a.id := by
          intro c hc
          have hac : a.id ≠ c.id := hhead c hc
          refine ⟨fun h => hac h.symm, fun i hi => ?_⟩
          rw [htagall c (List.mem_cons_of_mem _ hc) i hi]
          exact fun h => hac h.symm
        refine (syncLoop_instances_frame hframe _).trans ?_
        apply syncAccount_instances_filter_self hf
        intro i hi
        exact htagall a (by simp) i (by rw [hf]; exact hi)
      · exact ih ha' htail (fun c hc => htagall c (List.mem_cons_of_mem _ hc)) _

theorem syncLoop_instances_of_mem_err {fetch : AccountRow → Except String (List V2Inst)}
    {fresh : String → Nat → String} {now : String} {a : AccountRow}
    {msg : String} {accs : List AccountRow}
    (ha : a ∈ accs) (hpw : accs.Pairwise (fun b c => b.id ≠ c.id))
    (hf : fetch a = .error msg)
    (htagall : ∀ b ∈ accs, ∀ i ∈ okItems (fetch b), i.cloud_account_id = b.id)
    (db : V2DB) :
    (syncLoop fetch fresh now db accs).1.instances.filter
        (fun i => decide (i.cloud_account_id = a.id))
      = db.instances.filter (fun i => decide (i.cloud_account_id = a.id)) := by
  induction accs generalizing db with
  | nil => cases ha
  | cons b rest ih =>
      obtain ⟨hhead, htail⟩ := List.pairwise_cons.mp hpw
      rw [syncLoop]
      rcases List.mem_cons.mp ha with rfl | ha'
      · have hframe : ∀ c ∈ rest, c.id ≠ a.id ∧
            ∀ i ∈ okItems (fetch c), i.cloud_account_id ≠ a.id := by
          intro c hc
          have hac : a.id ≠ c.id := hhead c hc
          refine ⟨fun h => hac h.symm, fun i hi => ?_⟩
          rw [htagall c (List.mem_cons_of_mem _ hc) i hi]
          exact fun h => hac h.symm
        refine (syncLoop_instances_frame hframe _).trans ?_
        rw [syncAccount_instances_err hf]
      · have hba : b.id ≠ a.id := hhead a ha'
        refine (ih ha' htail (fun c hc => htagall c (List.mem_cons_of_mem _ hc)) _).trans ?_
        exact syncAccount_instances_filter_ne hba (fun i hi => by
          rw [htagall b (by simp) i hi]; exact hba)

theorem syncLoop_recs_of_mem_ok {fetch : AccountRow → Except String (List V2Inst)}
    {fresh : String → Nat → String} {now : String} {a : AccountRow}
    {items : List V2Inst} {accs : List AccountRow}
    (ha : a ∈ accs) (hpw : accs.Pairwise (fun b c => b.id ≠ c.id))
    (hf : fetch a = .ok items)
    (htagall : ∀ b ∈ accs, ∀ i ∈ okItems (fetch b), i.cloud_account_id = b.id)
    (db : V2DB) :
    (syncLoop fetch fresh now db accs).1.recommendations.filter
        (fun r => decide (r.cloud_account_id = some a.id))
      = generate_recommendations (fresh a.id) now items := by
  induction accs generalizing db with
  | nil => cases ha
  | cons b rest ih =>
      obtain ⟨hhead, htail⟩ := List.pairwise_cons.mp hpw
      rw [syncLoop]
      rcases List.mem_cons.mp ha with rfl | ha'
      · have hframe : ∀ c ∈ rest, c.id ≠ a.id ∧
            ∀ i ∈ okItems (fetch c), i.cloud_account_id = c.id := by
          intro c hc
          exact ⟨fun h => hhead c hc h.symm, htagall c (List.mem_cons_of_mem _ hc)⟩
        refine (syncLoop_recs_frame hframe _).trans ?_
        apply syncAccount_recs_filter_self hf
        intro i hi
        exact htagall a (by simp) i (by rw [hf]; exact hi)
      · exact ih ha' htail (fun c hc => htagall c (List.mem_cons_of_mem _ hc)) _

theorem syncLoop_find_of_mem_ok {fetch : AccountRow → Except String (List V2Inst)}
    {fresh : String → Nat → String} {now : String} {a : AccountRow}
    {items : List V2Inst} {accs : List AccountRow}
    (ha : a ∈ accs) (hpw : accs.Pairwise (fun b c => b.id ≠ c.id))
    (hf : fetch a = .ok items) (db : V2DB) :
    findAcct (syncLoop fetch fresh now db accs).1 a.id
      = (findAcct db a.id).map (okUpdate now items.length) := by
  induction accs generalizing db with
  | nil => cases ha
  | cons b rest ih =>
      obtain ⟨hhead, htail⟩ := List.pairwise_cons.mp hpw
      rw [syncLoop]
      rcases List.mem_cons.mp ha with rfl | ha'
      · refine (syncLoop_find_frame (fun c hc h => hhead c hc h.symm) _).trans ?_
        exact syncAccount_find_self_ok hf
      · rw [ih ha' htail _, syncAccount_find_ne (hhead a ha')]

theorem syncLoop_find_of_mem_err {fetch : AccountRow → Except String (List V2Inst)}
    {fresh : String → Nat → String} {now : String} {a : AccountRow}
    {msg : String} {accs : List AccountRow}
    (ha : a ∈ accs) (hpw : accs.Pairwise (fun b c => b.id ≠ c.id))
    (hf : fetch a = .error msg) (db : V2DB) :
    findAcct (syncLoop fetch fresh now db accs).1 a.id
      = (findAcct db a.id).map (errUpdate now msg) := by
  induction accs generalizing db with
  | nil => cases ha
  | cons b rest ih =>
      obtain ⟨hhead, htail⟩ := List.pairwise_cons.mp hpw
      rw [syncLoop]
      rcases List.mem_cons.mp ha with rfl | ha'
      · refine (syncLoop_find_frame (fun c hc h => hhead c hc h.symm) _).trans ?_
        exact syncAccount_find_self_err hf
      · rw [ih ha' htail _, syncAccount_find_ne (hhead a ha')]

/-- The error list of the loop depends only on the per-account fetch
outcomes, in account order. -/
theorem syncLoop_errors {fetch : AccountRow → Except String (List V2Inst)}
    {fresh : String → Nat → String} {now : String} {accs : List AccountRow}
    (db : V2DB) :
    (syncLoop fetch fresh now db accs).2.2.2
      = accs.flatMap (fun a => match fetch a with
          | .ok _ => []
          | .error e => [errLabel a e]) := by
  induction accs generalizing db with
  | nil => rfl
  | cons a rest ih =>
      rw [syncLoop, List.flatMap_cons]
      show (syncAccount fetch fresh now db a).err.toList ++ _ = _
      rw [syncAccount_err_eq, ih]
      cases fetch a <;> rfl

/-! ## Support lemmas for the idempotence and frame properties -/

theorem mem_eq_of_pairwise_key {items : List V1Inst}
    (hpw : items.Pairwise (fun i j => instKey i ≠ instKey j)) {i j : V1Inst}
    (hi : i ∈ items) (hj : j ∈ items) (hk : instKey i = instKey j) : i = j := by
  induction items with
  | nil => cases hi
  | cons a l ih =>
      obtain ⟨hhead, htail⟩ := List.pairwise_cons.mp hpw
      rcases List.mem_cons.mp hi with rfl | hi' <;>
        rcases List.mem_cons.mp hj with rfl | hj'
      · rfl
      · exact absurd hk (hhead j hj')
      · exact absurd hk.symm (hhead i hi')
      · exact ih htail hi' hj'

/-- Reconciling a snapshot against the store it has just been written to
yields no transitions (each key now carries its own last-written state). -/
theorem stateChangesFor_post_empty {items : List V1Inst}
    (hnn : ∀ i ∈ items, i.provider.isSome ∧ i.instance_id.isSome)
    (hpw : items.Pairwise (fun i j => instKey i ≠ instKey j))
    (now : String) (store0 : List V1Row) :
    stateChangesFor (get_instance_states (upsertT now store0 items) "aws") items
      = [] := by
  rw [stateChangesFor]
  apply List.filterMap_eq_nil_iff.mpr
  intro i hi
  have hstate := stateAt_upsertT hnn now store0 "aws" (instKey i)
  have hfind : items.reverse.find? (fun j => decide (instKey j = instKey i))
      = some i := by
    cases hf : items.reverse.find? (fun j => decide (instKey j = instKey i)) with
    | none =>
        exfalso
        have := List.find?_eq_none.mp hf i (List.mem_reverse.mpr hi)
        simp at this
    | some j =>
        have hps := List.find?_some hf
        simp only [decide_eq_true_eq] at hps
        have hjk : instKey j = instKey i := hps
        have hjm : j ∈ items := List.mem_reverse.mp (List.mem_of_find?_eq_some hf)
        rw [mem_eq_of_pairwise_key hpw hjm hi hjk]
  rw [hfind] at hstate
  dsimp only at hstate
  by_cases hp : i.provider = some "aws"
  · rw [if_pos hp] at hstate
    rw [hstate]
    cases hs : i.state with
    | none => rfl
    | some s =>
        dsimp only
        rw [if_neg]
        intro hcond
        exact hcond.2.2.1 rfl
  · rw [if_neg hp] at hstate
    rw [hstate]

theorem rowOfInst_provider {i : V1Inst} {now : String} {r : V1Row}
    (h : rowOfInst i now = some r) : i.provider = some r.provider := by
  rw [rowOfInst] at h
  rcases hp : i.provider with - | p0 <;> rcases hq : i.instance_id with - | q0 <;>
    rw [hp, hq] at h
  · cases h
  · cases h
  · cases h
  · have := Option.some.inj h
    rw [← this]

theorem upsertOne_provider_frame {i : V1Inst} {now : String} {store s1 : List V1Row}
    {p : String} (hip : i.provider ≠ some p)
    (hok : upsertOne now store i = .ok s1) :
    s1.filter (fun r => decide (r.provider = p))
      = store.filter (fun r => decide (r.provider = p)) := by
  rw [upsertOne] at hok
  cases hro : rowOfInst i now with
  | none => rw [hro] at hok; cases hok
  | some r =>
      rw [hro] at hok
      dsimp only at hok
      have hrp : r.provider ≠ p := fun h => hip (by rw [rowOfInst_provider hro, h])
      by_cases hcond : (r.region.isSome &&
          store.any fun s => decide (rowKey s = rowKey r)) = true
      · rw [if_pos hcond] at hok
        rw [← Except.ok.inj hok]
        apply filter_map_eq_of
        intro x _
        constructor
        · by_cases hkx : rowKey x = rowKey r
          · rw [if_pos hkx]
            have hxp : x.provider = r.provider := by
              have := congrArg Prod.fst hkx
              simpa [rowKey] using this
            rw [hxp]
          · rw [if_neg hkx]
        · intro hx
          by_cases hkx : rowKey x = rowKey r
          · exfalso
            apply hrp
            have hxp : x.provider = r.provider := by
              have := congrArg Prod.fst hkx
              simpa [rowKey] using this
            rw [← hxp]
            exact of_decide_eq_true hx
          · rw [if_neg hkx]
      · rw [if_neg hcond] at hok
        rw [← Except.ok.inj hok, List.filter_append]
        have : List.filter (fun row => decide (row.provider = p)) [r] = [] := by
          simp [hrp]
        rw [this, List.append_nil]

theorem upsert_instances_eq_foldlM (store : List V1Row) (items : List V1Inst)
    (now : String) :
    upsert_instances store items now = items.foldlM (upsertOne now) store := by
  cases items <;> rfl

theorem upsert_provider_frame {items : List V1Inst} {now : String}
    {store store' : List V1Row} {p : String}
    (hitems : ∀ i ∈ items, i.provider ≠ some p)
    (hok : upsert_instances store items now = .ok store') :
    store'.filter (fun r => decide (r.provider = p))
      = store.filter (fun r => decide (r.provider = p)) := by
  rw [upsert_instances_eq_foldlM] at hok
  induction items generalizing store with
  | nil =>
      rw [← Except.ok.inj hok]
  | cons i l ih =>
      rw [List.foldlM_cons] at hok
      cases hone : upsertOne now store i with
      | error e => rw [hone] at hok; cases hok
      | ok s1 =>
          rw [hone] at hok
          have h1 := ih (fun j hj => hitems j (List.mem_cons_of_mem _ hj)) hok
          rw [h1, upsertOne_provider_frame (hitems i (by simp)) hone]

/-- Skipping a provider with no (or empty) stored credentials: only the
result entry is appended. -/
theorem providerStep_skip {credsOf : String → Option (List (String × String))}
    {fetchOf : String → List (String × String) → Except String (List V1Inst)}
    {now : String} {acc : V1Acc} {p : String}
    (h : credsOf p = none ∨ credsOf p = some []) :
    providerStep credsOf fetchOf now acc p
      = { acc with results := acc.results ++ [(p, { connected := false })] } := by
  rw [providerStep]
  rcases h with h | h
  · rw [h]
  · rw [h]; rfl

/-- A provider step only depends on the fetch behaviour at its own provider. -/
theorem providerStep_congr_fetch {credsOf : String → Option (List (String × String))}
    {f f₂ : String → List (String × String) → Except String (List V1Inst)}
    {now : String} {acc : V1Acc} {q : String} (h : f₂ q = f q) :
    providerStep credsOf f₂ now acc q = providerStep credsOf f now acc q := by
  rw [providerStep, providerStep, h]

/-- A provider step leaves the rows of a foreign provider untouched. -/
theorem providerStep_store_frame {credsOf : String → Option (List (String × String))}
    {fetchOf : String → List (String × String) → Except String (List V1Inst)}
    {now : String} {acc : V1Acc} {q p : String}
    (hq : ∀ creds items, fetchOf q creds = .ok items →
      ∀ i ∈ items, i.provider ≠ some p) :
    (providerStep credsOf fetchOf now acc q).store.filter
        (fun r => decide (r.provider = p))
      = acc.store.filter (fun r => decide (r.provider = p)) := by
  rw [providerStep]
  cases hc : credsOf q with
  | none => rfl
  | some creds =>
      dsimp only
      by_cases hemp : creds.isEmpty
      · rw [if_pos hemp]
      · rw [if_neg hemp]
        by_cases hconn : hasConnector q
        · rw [if_neg (fun hh : ¬ hasConnector q = true => hh hconn)]
          cases hfetch : fetchOf q creds with
          | error e => rfl
          | ok items =>
              dsimp only
              cases hup : upsert_instances acc.store items now with
              | error e => rfl
              | ok store' =>
                  exact upsert_provider_frame (hq creds items hfetch) hup
        · rw [if_pos hconn]

/-! ### Components of a nonempty sync run -/

theorem sync_all_instances {fetch : AccountRow → Except String (List V2Inst)}
    {fresh : String → Nat → String} {now : String} {db : V2DB}
    (hne : (loadedAccounts db).isEmpty = false) :
    (sync_all_accounts fetch fresh now db).1.instances
      = (syncLoop fetch fresh now (startedDb db (loadedAccounts db).length)
          (loadedAccounts db)).1.instances := by
  simp only [sync_all_accounts]
  rw [if_neg (by rw [hne]; exact Bool.false_ne_true)]

theorem sync_all_recommendations {fetch : AccountRow → Except String (List V2Inst)}
    {fresh : String → Nat → String} {now : String} {db : V2DB}
    (hne : (loadedAccounts db).isEmpty = false) :
    (sync_all_accounts fetch fresh now db).1.recommendations
      = (syncLoop fetch fresh now (startedDb db (loadedAccounts db).length)
          (loadedAccounts db)).1.recommendations := by
  simp only [sync_all_accounts]
  rw [if_neg (by rw [hne]; exact Bool.false_ne_true)]

theorem sync_all_accts {fetch : AccountRow → Except String (List V2Inst)}
    {fresh : String → Nat → String} {now : String} {db : V2DB}
    (hne : (loadedAccounts db).isEmpty = false) :
    (sync_all_accounts fetch fresh now db).1.cloud_accounts
      = (syncLoop fetch fresh now (startedDb db (loadedAccounts db).length)
          (loadedAccounts db)).1.cloud_accounts := by
  simp only [sync_all_accounts]
  rw [if_neg (by rw [hne]; exact Bool.false_ne_true)]

theorem sync_all_errors {fetch : AccountRow → Except String (List V2Inst)}
    {fresh : String → Nat → String} {now : String} {db : V2DB}
    (hne : (loadedAccounts db).isEmpty = false) :
    (sync_all_accounts fetch fresh now db).2.errors
      = (syncLoop fetch fresh now (startedDb db (loadedAccounts db).length)
          (loadedAccounts db)).2.2.2 := by
  simp only [sync_all_accounts]
  rw [if_neg (by rw [hne]; exact Bool.false_ne_true)]

theorem sync_all_success {fetch : AccountRow → Except String (List V2Inst)}
    {fresh : String → Nat → String} {now : String} {db : V2DB}
    (hne : (loadedAccounts db).isEmpty = false) :
    (sync_all_accounts fetch fresh now db).2.success
      = ((syncLoop fetch fresh now (startedDb db (loadedAccounts db).length)
          (loadedAccounts db)).2.2.2).isEmpty := by
  simp only [sync_all_accounts]
  rw [if_neg (by rw [hne]; exact Bool.false_ne_true)]

theorem sync_all_synced {fetch : AccountRow → Except String (List V2Inst)}
    {fresh : String → Nat → String} {now : String} {db : V2DB}
    (hne : (loadedAccounts db).isEmpty = false) :
    (sync_all_accounts fetch fresh now db).2.accounts_synced
      = (loadedAccounts db).length := by
  simp only [sync_all_accounts]
  rw [if_neg (by rw [hne]; exact Bool.false_ne_true)]

theorem sync_all_audit {fetch : AccountRow → Except String (List V2Inst)}
    {fresh : String → Nat → String} {now : String} {db : V2DB}
    (hne : (loadedAccounts db).isEmpty = false) :
    (sync_all_accounts fetch fresh now db).1.audit_events
      = (syncLoop fetch fresh now (startedDb db (loadedAccounts db).length)
            (loadedAccounts db)).1.audit_events
        ++ [completedEvent (loadedAccounts db).length
            (syncLoop fetch fresh now (startedDb db (loadedAccounts db).length)
              (loadedAccounts db)).2.1
            (syncLoop fetch fresh now (startedDb db (loadedAccounts db).length)
              (loadedAccounts db)).2.2.1
            (syncLoop fetch fresh now (startedDb db (loadedAccounts db).length)
              (loadedAccounts db)).2.2.2] := by
  simp only [sync_all_accounts]
  rw [if_neg (by rw [hne]; exact Bool.false_ne_true)]

theorem findAcct_startedDb (db : V2DB) (n : Nat) (x : String) :
    findAcct (startedDb db n) x = findAcct db x := rfl

/-! ## Concrete scenarios used by witnesses and counterexamples -/

def wCredsOf : String → Option (List (String × String)) :=
  fun p => if p = "aws" then some [("access_key_id", "k")] else none

def wRowRun : V1Row :=
  { provider := "aws", region := some "r1", instance_id := "i-1",
    state := some "running" }

def wInstStop : V1Inst :=
  { provider := some "aws", region := some "r1", instance_id := some "i-1",
    state := some "stopped" }

def w5dup1 : V1Inst :=
  { provider := some "aws", region := some "r1", instance_id := some "i-2",
    name := some "first", state := some "running" }

def w5dup2 : V1Inst :=
  { provider := some "aws", region := some "r1", instance_id := some "i-2",
    name := some "second", state := some "stopped" }

def w5c1 : V1Inst :=
  { provider := some "aws", region := some "r1", instance_id := some "i-3",
    state := some "running" }

def w5c2 : V1Inst :=
  { provider := some "aws", region := some "r1", instance_id := some "i-4",
    state := some "running" }

/-! ## Claims -/

/-- C1: for every instance identity triple present in both the previous
stored snapshot and the newly fetched snapshot, `run_sync` emits a
state-change alert if and only if both the previous and the new state belong
to the comparable set `{running, stopped}` and they differ; when either
state lies outside that set (including `None`/empty states) no alert is
emitted even if the states differ. -/
theorem c1_transition_iff
    (store0 : List V1Row) (logs0 : List V1LogEntry) (creds : List (String × String))
    (items : List V1Inst) (source now : String) (dur : Nat) (logOk : Bool)
    (hcreds : creds ≠ [])
    (hnn : ∀ i ∈ items, i.provider.isSome ∧ i.instance_id.isSome)
    (inst : V1Inst) (ps ns : String) :
    (inst, ps, ns) ∈ (run_sync (fun p => if p = "aws" then some creds else none)
        (fun _ _ => .ok items) ⟨store0, logs0⟩ source now dur logOk).alerts
      ↔ inst ∈ items ∧
        get_instance_states store0 "aws" (instKey inst) = some ps ∧
        inst.state = some ns ∧
        (ps = "running" ∨ ps = "stopped") ∧ (ns = "running" ∨ ns = "stopped") ∧
        ps ≠ ns := by
  rw [run_sync_aws_only store0 logs0 creds items source now dur logOk hcreds hnn]
  exact mem_stateChangesFor _ items inst ps ns

/-- Witness for C1: a stored running instance refetched as stopped is
alerted. -/
theorem c1_witness :
    (wInstStop, "running", "stopped") ∈
      (run_sync (fun p => if p = "aws" then some [("access_key_id", "k")] else none)
        (fun _ _ => .ok [wInstStop]) ⟨[wRowRun], []⟩ "manual" "t1" 7 true).alerts :=
  (c1_transition_iff [wRowRun] [] [("access_key_id", "k")] [wInstStop] "manual" "t1"
    7 true (by decide) (by decide) wInstStop "running" "stopped").mpr (by decide)

/-- C6: every `run_sync` call appends exactly one sync-log entry (whatever
the per-provider outcomes were), and a failing log write is swallowed: it
leaves the log unchanged and has no effect on the returned results, total,
store or alerts. -/
theorem c6_sync_log_best_effort
    (credsOf : String → Option (List (String × String)))
    (fetchOf : String → List (String × String) → Except String (List V1Inst))
    (init : V1State) (source now : String) (dur : Nat) :
    ((run_sync credsOf fetchOf init source now dur true).logs
        = init.logs ++
          [{ source := source, started_at := now, finished_at := now,
             duration_ms := dur,
             total := (run_sync credsOf fetchOf init source now dur true).total,
             results := (run_sync credsOf fetchOf init source now dur true).results }]) ∧
    (run_sync credsOf fetchOf init source now dur false).logs = init.logs ∧
    (run_sync credsOf fetchOf init source now dur false).results
      = (run_sync credsOf fetchOf init source now dur true).results ∧
    (run_sync credsOf fetchOf init source now dur false).total
      = (run_sync credsOf fetchOf init source now dur true).total ∧
    (run_sync credsOf fetchOf init source now dur false).store
      = (run_sync credsOf fetchOf init source now dur true).store ∧
    (run_sync credsOf fetchOf init source now dur false).alerts
      = (run_sync credsOf fetchOf init source now dur true).alerts :=
  ⟨rfl, rfl, rfl, rfl, rfl, rfl⟩

/-- C5 (corrected, amended part): under duplicate identities in one
snapshot, the store keeps exactly one row per (non-`NULL`-region) identity,
carrying the values of the **last** occurrence; but the report for the
provider is only `{connected, count}` with `count` the raw (duplicated)
list length — no anomaly count exists anywhere in the report. -/
theorem c5_amended_last_wins
    (store0 : List V1Row) (logs0 : List V1LogEntry) (creds : List (String × String))
    (items : List V1Inst) (source now : String) (dur : Nat) (logOk : Bool)
    (hcreds : creds ≠ [])
    (hnn : ∀ i ∈ items, i.provider.isSome ∧ i.instance_id.isSome)
    (hu : keyUnique store0) (k : IdKey) (hkreg : k.2.2.isSome) (i : V1Inst)
    (hlast : items.reverse.find? (fun j => decide (instKey j = k)) = some i) :
    rowsWith (run_sync (fun p => if p = "aws" then some creds else none)
        (fun _ _ => .ok items) ⟨store0, logs0⟩ source now dur logOk).store k
      = [mkRow i now] ∧
    (run_sync (fun p => if p = "aws" then some creds else none)
        (fun _ _ => .ok items) ⟨store0, logs0⟩ source now dur logOk).results
      = awsOnlyResults items.length := by
  rw [run_sync_aws_only store0 logs0 creds items source now dur logOk hcreds hnn]
  refine ⟨?_, rfl⟩
  rw [rowsWith_upsertT hnn now hu hkreg, hlast]

/-- Counterexample for C5 as stated: a duplicate-identity snapshot and a
duplicate-free snapshot of the same length produce **identical** reports
(`{connected: true, count: 2}` for aws), so the duplicate is silently
collapsed (the store keeps one row, the last occurrence) and no anomaly
count is surfaced. -/
theorem c5_counterexample :
    instKey w5dup1 = instKey w5dup2 ∧ w5dup1 ≠ w5dup2 ∧
    instKey w5c1 ≠ instKey w5c2 ∧
    (run_sync wCredsOf (fun _ _ => .ok [w5dup1, w5dup2]) ⟨[], []⟩ "manual" "t0"
        5 true).results
      = (run_sync wCredsOf (fun _ _ => .ok [w5c1, w5c2]) ⟨[], []⟩ "manual" "t0"
        5 true).results ∧
    (run_sync wCredsOf (fun _ _ => .ok [w5dup1, w5dup2]) ⟨[], []⟩ "manual" "t0"
        5 true).store = [mkRow w5dup2 "t0"] := by
  decide

/-- Witness for C5's amended theorem at the duplicate scenario. -/
theorem c5_witness :
    rowsWith (run_sync (fun p => if p = "aws" then some [("access_key_id", "k")] else none)
        (fun _ _ => .ok [w5dup1, w5dup2]) ⟨[], []⟩ "manual" "t0" 5 true).store
        (some "aws", some "i-2", some "r1")
      = [mkRow w5dup2 "t0"] ∧
    (run_sync (fun p => if p = "aws" then some [("access_key_id", "k")] else none)
        (fun _ _ => .ok [w5dup1, w5dup2]) ⟨[], []⟩ "manual" "t0" 5 true).results
      = awsOnlyResults 2 :=
  c5_amended_last_wins [] [] [("access_key_id", "k")] [w5dup1, w5dup2] "manual"
    "t0" 5 true (by decide) (by decide) (fun k _ => by simp [rowsWith])
    (some "aws", some "i-2", some "r1") (by decide) w5dup2 (by decide)

/-- One result entry is appended per provider, whatever the branch taken. -/
theorem providerStep_results_append
    (credsOf : String → Option (List (String × String)))
    (fetchOf : String → List (String × String) → Except String (List V1Inst))
    (now : String) (acc : V1Acc) (q : String) :
    ∃ res, (providerStep credsOf fetchOf now acc q).results
      = acc.results ++ [(q, res)] := by
  rw [providerStep]
  cases credsOf q with
  | none => exact ⟨_, rfl⟩
  | some creds =>
      dsimp only
      by_cases h1 : creds.isEmpty
      · rw [if_pos h1]; exact ⟨_, rfl⟩
      · rw [if_neg h1]
        by_cases h2 : hasConnector q
        · rw [if_neg (fun hh : ¬ hasConnector q = true => hh h2)]
          cases fetchOf q creds with
          | error e => exact ⟨_, rfl⟩
          | ok items =>
              dsimp only
              cases upsert_instances acc.store items now with
              | error e => exact ⟨_, rfl⟩
              | ok s => exact ⟨_, rfl⟩
        · rw [if_pos h2]; exact ⟨_, rfl⟩

/-- C3: after a successful v2 sync of one account its persisted instance set
is exactly the newly fetched snapshot — every previously stored document
whose identity triple is absent from the snapshot is gone (full replace,
not soft-delete) — and the v1 reconciler computes its transitions from the
**pre-replacement** store: its alert list equals the diff against the prior
states, while diffing the same snapshot against the post-replacement store
would yield no transitions at all. -/
theorem c3_full_replace_and_pre_state_transitions
    (db : V2DB) (fetch : AccountRow → Except String (List V2Inst))
    (fresh : String → Nat → String) (now : String)
    (a : AccountRow) (items : List V2Inst)
    (ha : a ∈ loadedAccounts db)
    (hpw : (loadedAccounts db).Pairwise (fun b c => b.id ≠ c.id))
    (hf : fetch a = .ok items)
    (htagall : ∀ b ∈ loadedAccounts db, ∀ i ∈ okItems (fetch b),
      i.cloud_account_id = b.id)
    (store0 : List V1Row) (logs0 : List V1LogEntry) (creds : List (String × String))
    (vitems : List V1Inst) (source now1 : String) (dur : Nat) (logOk : Bool)
    (hcreds : creds ≠ [])
    (hnn : ∀ i ∈ vitems, i.provider.isSome ∧ i.instance_id.isSome)
    (hkpw : vitems.Pairwise (fun i j => instKey i ≠ instKey j)) :
    ((sync_all_accounts fetch fresh now db).1.instances.filter
        (fun i => decide (i.cloud_account_id = a.id)) = items) ∧
    (∀ r ∈ db.instances, r.cloud_account_id = a.id →
      (r.provider, r.instance_id, r.region_or_zone) ∉
        items.map (fun i => (i.provider, i.instance_id, i.region_or_zone)) →
      r ∉ (sync_all_accounts fetch fresh now db).1.instances) ∧
    ((run_sync (fun p => if p = "aws" then some creds else none)
        (fun _ _ => .ok vitems) ⟨store0, logs0⟩ source now1 dur logOk).alerts
      = stateChangesFor (get_instance_states store0 "aws") vitems) ∧
    (stateChangesFor (get_instance_states
        (run_sync (fun p => if p = "aws" then some creds else none)
          (fun _ _ => .ok vitems) ⟨store0, logs0⟩ source now1 dur logOk).store "aws")
        vitems = []) := by
  have hne : (loadedAccounts db).isEmpty = false := by
    cases hl : loadedAccounts db with
    | nil => rw [hl] at ha; cases ha
    | cons x xs => rfl
  have hslice : (sync_all_accounts fetch fresh now db).1.instances.filter
      (fun i => decide (i.cloud_account_id = a.id)) = items := by
    rw [sync_all_instances hne]
    exact syncLoop_instances_of_mem_ok ha hpw hf htagall _
  refine ⟨hslice, ?_, ?_, ?_⟩
  · intro r _ hra hkey habs
    apply hkey
    have hrm : r ∈ (sync_all_accounts fetch fresh now db).1.instances.filter
        (fun i => decide (i.cloud_account_id = a.id)) :=
      List.mem_filter.mpr ⟨habs, decide_eq_true hra⟩
    rw [hslice] at hrm
    exact List.mem_map_of_mem _ hrm
  · rw [run_sync_aws_only store0 logs0 creds vitems source now1 dur logOk hcreds hnn]
  · rw [run_sync_aws_only store0 logs0 creds vitems source now1 dur logOk hcreds hnn]
    exact stateChangesFor_post_empty hnn hkpw now1 store0

/-- C10: a provider with no (or empty) stored credentials is skipped
entirely: it is reported `{connected: false}` with no error, its previously
stored rows (and their states) are untouched, and the run's outcome does not
depend on that provider's connector behaviour at all (no connector call). -/
theorem c10_no_creds_skip
    (store0 : List V1Row) (logs0 : List V1LogEntry)
    (credsOf : String → Option (List (String × String)))
    (fetchOf : String → List (String × String) → Except String (List V1Inst))
    (p source now : String) (dur : Nat) (logOk : Bool)
    (hp : p = "aws" ∨ p = "azure")
    (hnocreds : credsOf p = none ∨ credsOf p = some [])
    (hother : ∀ q creds items, q ≠ p → fetchOf q creds = .ok items →
      ∀ i ∈ items, i.provider ≠ some p) :
    ((p, ({ connected := false } : ProviderResult)) ∈
      (run_sync credsOf fetchOf ⟨store0, logs0⟩ source now dur logOk).results) ∧
    ((run_sync credsOf fetchOf ⟨store0, logs0⟩ source now dur logOk).store.filter
        (fun r => decide (r.provider = p))
      = store0.filter (fun r => decide (r.provider = p))) ∧
    (∀ fetchOf₂ : String → List (String × String) → Except String (List V1Inst),
      (∀ q, q ≠ p → fetchOf₂ q = fetchOf q) →
      run_sync credsOf fetchOf₂ ⟨store0, logs0⟩ source now dur logOk
        = run_sync credsOf fetchOf ⟨store0, logs0⟩ source now dur logOk) := by
  rcases hp with rfl | rfl
  · -- p = "aws": skipped first, azure touches only azure rows
    have hstep1 : providerStep credsOf fetchOf now
        { store := store0, results := [], total := 0, alerts := [] } "aws"
        = { store := store0, results := [("aws", { connected := false })],
            total := 0, alerts := [] } := by
      rw [providerStep_skip hnocreds]
      rfl
    obtain ⟨res2, hres2⟩ := providerStep_results_append credsOf fetchOf now
      (providerStep credsOf fetchOf now
        { store := store0, results := [], total := 0, alerts := [] } "aws") "azure"
    have hresults : (run_sync credsOf fetchOf ⟨store0, logs0⟩ source now dur logOk).results
        = (providerStep credsOf fetchOf now (providerStep credsOf fetchOf now
            { store := store0, results := [], total := 0, alerts := [] } "aws")
            "azure").results := rfl
    have hstore : (run_sync credsOf fetchOf ⟨store0, logs0⟩ source now dur logOk).store
        = (providerStep credsOf fetchOf now (providerStep credsOf fetchOf now
            { store := store0, results := [], total := 0, alerts := [] } "aws")
            "azure").store := rfl
    refine ⟨?_, ?_, ?_⟩
    · rw [hresults, hres2, hstep1]
      simp
    · rw [hstore]
      refine (providerStep_store_frame ?_).trans ?_
      · exact fun creds items hfetch => hother "azure" creds items (by decide) hfetch
      · rw [hstep1]
    · intro fetchOf₂ hq
      have h1 : providerStep credsOf fetchOf₂ now
          { store := store0, results := [], total := 0, alerts := [] } "aws"
          = providerStep credsOf fetchOf now
            { store := store0, results := [], total := 0, alerts := [] } "aws" := by
        rw [providerStep_skip hnocreds, providerStep_skip hnocreds]
      have h2 : fetchOf₂ "azure" = fetchOf "azure" := hq "azure" (by decide)
      rw [run_sync, run_sync]
      simp only [List.foldl_cons, List.foldl_nil]
      rw [h1, providerStep_congr_fetch h2]
  · -- p = "azure": aws touches only aws rows, azure skipped
    have hframe1 : (providerStep credsOf fetchOf now
        { store := store0, results := [], total := 0, alerts := [] } "aws").store.filter
          (fun r => decide (r.provider = "azure"))
        = store0.filter (fun r => decide (r.provider = "azure")) :=
      providerStep_store_frame
        (fun creds items hfetch => hother "aws" creds items (by decide) hfetch)
    have hresults : (run_sync credsOf fetchOf ⟨store0, logs0⟩ source now dur logOk).results
        = (providerStep credsOf fetchOf now (providerStep credsOf fetchOf now
            { store := store0, results := [], total := 0, alerts := [] } "aws")
            "azure").results := rfl
    have hstore : (run_sync credsOf fetchOf ⟨store0, logs0⟩ source now dur logOk).store
        = (providerStep credsOf fetchOf now (providerStep credsOf fetchOf now
            { store := store0, results := [], total := 0, alerts := [] } "aws")
            "azure").store := rfl
    refine ⟨?_, ?_, ?_⟩
    · rw [hresults, providerStep_skip hnocreds]
      simp
    · rw [hstore, providerStep_skip hnocreds]
      exact hframe1
    · intro fetchOf₂ hq
      have h2 : fetchOf₂ "aws" = fetchOf "aws" := hq "aws" (by decide)
      rw [run_sync, run_sync]
      simp only [List.foldl_cons, List.foldl_nil]
      rw [providerStep_congr_fetch h2,
        providerStep_skip hnocreds, providerStep_skip hnocreds]

theorem flatMap_eq_nil_of {α β : Type} {f : α → List β} {l : List α}
    (h : ∀ x ∈ l, f x = []) : l.flatMap f = [] := by
  induction l with
  | nil => rfl
  | cons a t ih =>
      rw [List.flatMap_cons, h a (by simp),
        ih (fun x hx => h x (List.mem_cons_of_mem _ hx)), List.nil_append]

/-- C2: error isolation of a full orchestration run — with exactly one
failing connector among the loaded accounts, the run returns (it never
raises), its report carries exactly that one error message, the audit trail
records `accounts_synced = N - 1`, the failing account is marked
`status=error` with the failure's message, and every other account is synced
and persisted exactly as if the failure had not happened. -/
theorem c2_isolation
    (db : V2DB) (fetch : AccountRow → Except String (List V2Inst))
    (fresh : String → Nat → String) (now msg : String)
    (pre post : List AccountRow) (ak : AccountRow)
    (hacc : loadedAccounts db = pre ++ ak :: post)
    (hpw : (loadedAccounts db).Pairwise (fun b c => b.id ≠ c.id))
    (hfail : fetch ak = .error msg)
    (hok : ∀ b ∈ pre ++ post, ∃ l, fetch b = .ok l)
    (htagall : ∀ b ∈ loadedAccounts db, ∀ i ∈ okItems (fetch b),
      i.cloud_account_id = b.id) :
    ((sync_all_accounts fetch fresh now db).2.errors = [errLabel ak msg]) ∧
    ((sync_all_accounts fetch fresh now db).2.success = false) ∧
    ((sync_all_accounts fetch fresh now db).2.accounts_synced
      = (pre ++ ak :: post).length) ∧
    (∃ t r, (sync_all_accounts fetch fresh now db).1.audit_events.getLast?
      = some { event_type := "sync.completed",
               payload := .syncCompleted ((pre ++ ak :: post).length - 1) t r
                 [errLabel ak msg] }) ∧
    (findAcct (sync_all_accounts fetch fresh now db).1 ak.id
      = (findAcct db ak.id).map (errUpdate now msg)) ∧
    (∀ b ∈ pre ++ post,
      ((sync_all_accounts fetch fresh now db).1.instances.filter
        (fun i => decide (i.cloud_account_id = b.id)) = okItems (fetch b)) ∧
      findAcct (sync_all_accounts fetch fresh now db).1 b.id
        = (findAcct db b.id).map (okUpdate now (okItems (fetch b)).length)) := by
  have hne : (loadedAccounts db).isEmpty = false := by
    rw [hacc]; cases pre <;> rfl
  have hak : ak ∈ loadedAccounts db := by
    rw [hacc]; exact List.mem_append_right pre (List.mem_cons_self ak post)
  have hmem : ∀ b ∈ pre ++ post, b ∈ loadedAccounts db := by
    intro b hb
    rw [hacc]
    rcases List.mem_append.mp hb with hb | hb
    · exact List.mem_append_left _ hb
    · exact List.mem_append_right pre (List.mem_cons_of_mem ak hb)
  have herr : (syncLoop fetch fresh now
      (startedDb db (loadedAccounts db).length) (loadedAccounts db)).2.2.2
      = [errLabel ak msg] := by
    rw [syncLoop_errors, hacc, List.flatMap_append, List.flatMap_cons, hfail]
    have h1 : pre.flatMap (fun a => match fetch a with
        | .ok _ => [] | .error e => [errLabel a e]) = [] := by
      apply flatMap_eq_nil_of
      intro b hb
      obtain ⟨l, hl⟩ := hok b (List.mem_append_left post hb)
      rw [hl]
    have h2 : post.flatMap (fun a => match fetch a with
        | .ok _ => [] | .error e => [errLabel a e]) = [] := by
      apply flatMap_eq_nil_of
      intro b hb
      obtain ⟨l, hl⟩ := hok b (List.mem_append_right pre hb)
      rw [hl]
    rw [h1, h2]
    rfl
  refine ⟨?_, ?_, ?_, ?_, ?_, ?_⟩
  · rw [sync_all_errors hne, herr]
  · rw [sync_all_success hne, herr]
    rfl
  · rw [sync_all_synced hne, hacc]
  · refine ⟨(syncLoop fetch fresh now (startedDb db (loadedAccounts db).length)
      (loadedAccounts db)).2.1,
      (syncLoop fetch fresh now (startedDb db (loadedAccounts db).length)
      (loadedAccounts db)).2.2.1, ?_⟩
    rw [sync_all_audit hne, List.getLast?_concat, completedEvent, herr, hacc]
    rfl
  · have h5 : findAcct (sync_all_accounts fetch fresh now db).1 ak.id
        = findAcct (syncLoop fetch fresh now
            (startedDb db (loadedAccounts db).length) (loadedAccounts db)).1 ak.id := by
      rw [findAcct, findAcct, sync_all_accts hne]
    rw [h5, syncLoop_find_of_mem_err hak hpw hfail, findAcct_startedDb]
  · intro b hb
    obtain ⟨lb, hlb⟩ := hok b hb
    have hbmem := hmem b hb
    constructor
    · rw [sync_all_instances hne, hlb]
      exact syncLoop_instances_of_mem_ok hbmem hpw hlb htagall _
    · have h6 : findAcct (sync_all_accounts fetch fresh now db).1 b.id
          = findAcct (syncLoop fetch fresh now
              (startedDb db (loadedAccounts db).length) (loadedAccounts db)).1 b.id := by
        rw [findAcct, findAcct, sync_all_accts hne]
      rw [h6, syncLoop_find_of_mem_ok hbmem hpw hlb, findAcct_startedDb, hlb]
      rfl

/-! ### V2 concrete scenarios -/

def w4acct : AccountRow :=
  { id := "acct1", provider := "aws", account_name := some "aws-account",
    status := "connected" }

def w4db0 : V2DB :=
  { cloud_accounts := [w4acct], instances := [], recommendations := [],
    audit_events := [] }

def w4api : AwsApiInstance :=
  { instanceId := some "i-1", stateName := some "running" }

def w4inst (t : String) : V2Inst := awsNormalizeV2 "u1" "acct1" "us-east-1" w4api t

def w4fetch (t : String) : AccountRow → Except String (List V2Inst) :=
  fun _ => .ok [w4inst t]

def w4fresh : String → Nat → String := fun a k => a ++ "-rec" ++ toString k

def w2acct2 : AccountRow :=
  { id := "acct2", provider := "aws", account_name := some "bad",
    status := "connected" }

def w2db : V2DB :=
  { cloud_accounts := [w4acct, w2acct2], instances := [], recommendations := [],
    audit_events := [] }

def w2fetch : AccountRow → Except String (List V2Inst) :=
  fun a => if a.id = "acct2" then .error "boom" else .ok [w4inst "t0"]

def w9api : AwsApiInstance :=
  { instanceId := some "i-1", stateName := some "stopped" }

def w9inst (t : String) : V2Inst := awsNormalizeV2 "u1" "acct1" "us-east-1" w9api t

def w9fetch (t : String) : AccountRow → Except String (List V2Inst) :=
  fun _ => .ok [w9inst t]

def w10credsOf : String → Option (List (String × String)) :=
  fun p => if p = "azure" then some [("tenant_id", "t")] else none

def w10az : V1Inst :=
  { provider := some "azure", region := some "az1", instance_id := some "vm-1",
    state := some "running" }

def w10fetch : String → List (String × String) → Except String (List V1Inst) :=
  fun q _ => if q = "azure" then .ok [w10az] else .ok []

/-- Witness for C2 at a two-account scenario with one failing connector. -/
theorem c2_witness :
    ((sync_all_accounts w2fetch w4fresh "t0" w2db).2.errors
      = [errLabel w2acct2 "boom"]) ∧
    ((sync_all_accounts w2fetch w4fresh "t0" w2db).2.success = false) ∧
    ((sync_all_accounts w2fetch w4fresh "t0" w2db).2.accounts_synced
      = ([w4acct] ++ w2acct2 :: []).length) ∧
    (∃ t r, (sync_all_accounts w2fetch w4fresh "t0" w2db).1.audit_events.getLast?
      = some { event_type := "sync.completed",
               payload := .syncCompleted (([w4acct] ++ w2acct2 :: []).length - 1) t r
                 [errLabel w2acct2 "boom"] }) ∧
    (findAcct (sync_all_accounts w2fetch w4fresh "t0" w2db).1 w2acct2.id
      = (findAcct w2db w2acct2.id).map (errUpdate "t0" "boom")) ∧
    (∀ b ∈ [w4acct] ++ ([] : List AccountRow),
      ((sync_all_accounts w2fetch w4fresh "t0" w2db).1.instances.filter
        (fun i => decide (i.cloud_account_id = b.id)) = okItems (w2fetch b)) ∧
      findAcct (sync_all_accounts w2fetch w4fresh "t0" w2db).1 b.id
        = (findAcct w2db b.id).map (okUpdate "t0" (okItems (w2fetch b)).length)) :=
  c2_isolation w2db w2fetch w4fresh "t0" "boom" [w4acct] [] w2acct2
    (by decide) (by decide) rfl
    (fun b hb => by
      rcases List.mem_append.mp hb with hb | hb
      · rcases List.mem_cons.mp hb with rfl | hb
        · exact ⟨[w4inst "t0"], rfl⟩
        · cases hb
      · cases hb)
    (by decide)

/-- Witness for C3 at the single-account replace scenario combined with the
v1 running-to-stopped transition scenario. -/
theorem c3_witness :
    ((sync_all_accounts (w4fetch "t0") w4fresh "t0" w4db0).1.instances.filter
        (fun i => decide (i.cloud_account_id = w4acct.id)) = [w4inst "t0"]) ∧
    (∀ r ∈ w4db0.instances, r.cloud_account_id = w4acct.id →
      (r.provider, r.instance_id, r.region_or_zone) ∉
        [w4inst "t0"].map (fun i => (i.provider, i.instance_id, i.region_or_zone)) →
      r ∉ (sync_all_accounts (w4fetch "t0") w4fresh "t0" w4db0).1.instances) ∧
    ((run_sync (fun p => if p = "aws" then some [("access_key_id", "k")] else none)
        (fun _ _ => .ok [wInstStop]) ⟨[wRowRun], []⟩ "manual" "t1" 7 true).alerts
      = stateChangesFor (get_instance_states [wRowRun] "aws") [wInstStop]) ∧
    (stateChangesFor (get_instance_states
        (run_sync (fun p => if p = "aws" then some [("access_key_id", "k")] else none)
          (fun _ _ => .ok [wInstStop]) ⟨[wRowRun], []⟩ "manual" "t1" 7 true).store "aws")
        [wInstStop] = []) :=
  c3_full_replace_and_pre_state_transitions w4db0 (w4fetch "t0") w4fresh "t0" w4acct
    [w4inst "t0"] (by decide) (by decide) rfl (by decide)
    [wRowRun] [] [("access_key_id", "k")] [wInstStop] "manual" "t1" 7 true
    (by decide) (by decide) (by decide)

/-- Witness for C10: AWS has no stored credentials, Azure syncs normally;
the AWS rows survive untouched and AWS is reported `connected: false`. -/
theorem c10_witness :
    (("aws", ({ connected := false } : ProviderResult)) ∈
      (run_sync w10credsOf w10fetch ⟨[wRowRun], []⟩ "manual" "t2" 3 true).results) ∧
    ((run_sync w10credsOf w10fetch ⟨[wRowRun], []⟩ "manual" "t2" 3 true).store.filter
        (fun r => decide (r.provider = "aws"))
      = [wRowRun].filter (fun r => decide (r.provider = "aws"))) := by
  have hother : ∀ (q : String) (creds : List (String × String)) (items : List V1Inst),
      q ≠ "aws" → w10fetch q creds = .ok items →
      ∀ i ∈ items, i.provider ≠ some "aws" := by
    intro q creds items _ hfetch i hi
    simp only [w10fetch] at hfetch
    by_cases hqa : q = "azure"
    · rw [if_pos hqa] at hfetch
      have hit := Except.ok.inj hfetch
      rw [← hit] at hi
      rcases List.mem_cons.mp hi with rfl | hi0
      · decide
      · cases hi0
    · rw [if_neg hqa] at hfetch
      have hit := Except.ok.inj hfetch
      rw [← hit] at hi
      cases hi
  have h := c10_no_creds_skip [wRowRun] [] w10credsOf w10fetch
    "aws" "manual" "t2" 3 true (Or.inl rfl) (Or.inl (by decide)) hother
  exact ⟨h.1, h.2.1⟩

/-- C4 (corrected, amended part): the timestamps of every persisted instance
of a synced account — `first_seen_at` included — equal the current sync
time, because the connectors stamp all three timestamp fields with the fetch
time and persistence is delete-then-insert of those freshly stamped rows.
No preservation of a previous row's `first_seen_at` takes place. -/
theorem c4_amended_timestamps
    (db : V2DB) (fetch : AccountRow → Except String (List V2Inst))
    (fresh : String → Nat → String) (now : String)
    (a : AccountRow) (items : List V2Inst)
    (ha : a ∈ loadedAccounts db)
    (hpw : (loadedAccounts db).Pairwise (fun b c => b.id ≠ c.id))
    (hf : fetch a = .ok items)
    (htagall : ∀ b ∈ loadedAccounts db, ∀ i ∈ okItems (fetch b),
      i.cloud_account_id = b.id)
    (hts : ∀ i ∈ items, i.first_seen_at = now ∧ i.last_seen_at = now ∧
      i.updated_at = now)
    (u acct reg : String) (api : AwsApiInstance) :
    (∀ i ∈ (sync_all_accounts fetch fresh now db).1.instances.filter
        (fun i => decide (i.cloud_account_id = a.id)),
      i.first_seen_at = now ∧ i.last_seen_at = now ∧ i.updated_at = now) ∧
    ((awsNormalizeV2 u acct reg api now).first_seen_at = now ∧
      (awsNormalizeV2 u acct reg api now).last_seen_at = now ∧
      (awsNormalizeV2 u acct reg api now).updated_at = now) := by
  have hne : (loadedAccounts db).isEmpty = false := by
    cases hl : loadedAccounts db with
    | nil => rw [hl] at ha; cases ha
    | cons x xs => rfl
  have hslice : (sync_all_accounts fetch fresh now db).1.instances.filter
      (fun i => decide (i.cloud_account_id = a.id)) = items := by
    rw [sync_all_instances hne]
    exact syncLoop_instances_of_mem_ok ha hpw hf htagall _
  refine ⟨?_, rfl, rfl, rfl⟩
  intro i hi
  rw [hslice] at hi
  exact hts i hi

/-- Counterexample for C4 as stated: the same AWS instance fetched in two
consecutive syncs at times `t0` and `t1` ends up with `first_seen_at = t1`
after the second sync — the previous row's `first_seen_at = t0` is **not**
preserved. -/
theorem c4_counterexample :
    (let db1 := (sync_all_accounts (w4fetch "t0") w4fresh "t0" w4db0).1
     let db2 := (sync_all_accounts (w4fetch "t1") w4fresh "t1" db1).1
     db1.instances.map (fun i => (i.instance_id, i.first_seen_at))
        = [(some "i-1", "t0")] ∧
     db2.instances.map (fun i => (i.instance_id, i.first_seen_at))
        = [(some "i-1", "t1")] ∧
     db1.instances.map (fun i => (i.provider, i.instance_id, i.region_or_zone))
        = db2.instances.map (fun i => (i.provider, i.instance_id, i.region_or_zone)) ∧
     ("t1" : String) ≠ "t0") := by
  decide

/-- Witness for C4's amended theorem at the concrete AWS scenario. -/
theorem c4_witness :
    (∀ i ∈ (sync_all_accounts (w4fetch "t0") w4fresh "t0" w4db0).1.instances.filter
        (fun i => decide (i.cloud_account_id = w4acct.id)),
      i.first_seen_at = "t0" ∧ i.last_seen_at = "t0" ∧ i.updated_at = "t0") ∧
    ((awsNormalizeV2 "u9" "acctX" "eu-west-1" w4api "t0").first_seen_at = "t0" ∧
      (awsNormalizeV2 "u9" "acctX" "eu-west-1" w4api "t0").last_seen_at = "t0" ∧
      (awsNormalizeV2 "u9" "acctX" "eu-west-1" w4api "t0").updated_at = "t0") :=
  c4_amended_timestamps w4db0 (w4fetch "t0") w4fresh "t0" w4acct [w4inst "t0"]
    (by decide) (by decide) rfl (by decide) (by decide)
    "u9" "acctX" "eu-west-1" w4api

/-- C9 (corrected, amended part): after a successful sync of an account, its
stored recommendations are exactly the freshly regenerated ones and every
one of them has `status = "open"` — so no previously dismissed
recommendation survives the regeneration. -/
theorem c9_amended_regeneration_open
    (db : V2DB) (fetch : AccountRow → Except String (List V2Inst))
    (fresh : String → Nat → String) (now : String)
    (a : AccountRow) (items : List V2Inst)
    (ha : a ∈ loadedAccounts db)
    (hpw : (loadedAccounts db).Pairwise (fun b c => b.id ≠ c.id))
    (hf : fetch a = .ok items)
    (htagall : ∀ b ∈ loadedAccounts db, ∀ i ∈ okItems (fetch b),
      i.cloud_account_id = b.id) :
    ((sync_all_accounts fetch fresh now db).1.recommendations.filter
        (fun r => decide (r.cloud_account_id = some a.id))
      = generate_recommendations (fresh a.id) now items) ∧
    (∀ r ∈ (sync_all_accounts fetch fresh now db).1.recommendations.filter
        (fun r => decide (r.cloud_account_id = some a.id)), r.status = "open") := by
  have hne : (loadedAccounts db).isEmpty = false := by
    cases hl : loadedAccounts db with
    | nil => rw [hl] at ha; cases ha
    | cons x xs => rfl
  have hslice : (sync_all_accounts fetch fresh now db).1.recommendations.filter
      (fun r => decide (r.cloud_account_id = some a.id))
      = generate_recommendations (fresh a.id) now items := by
    rw [sync_all_recommendations hne]
    exact syncLoop_recs_of_mem_ok ha hpw hf htagall _
  refine ⟨hslice, ?_⟩
  intro r hr
  rw [hslice] at hr
  exact (genRecs_fields _ _ _ r hr).1

/-- Counterexample for C9 as stated: a recommendation dismissed through the
update endpoint is regenerated with `status = "open"` for the same account
and resource by the next sync — the dismissal does not survive. -/
theorem c9_counterexample :
    (let db1 := (sync_all_accounts (w9fetch "t0") w4fresh "t0" w4db0).1
     let db1d := (update_recommendation db1 "acct1-rec0" "dismissed" "t0b").toOption.getD db1
     let db2 := (sync_all_accounts (w9fetch "t1") w4fresh "t1" db1d).1
     db1d.recommendations.map (fun r => (r.resource_id, r.cloud_account_id, r.status))
        = [(some "i-1", some "acct1", "dismissed")] ∧
     db2.recommendations.map (fun r => (r.resource_id, r.cloud_account_id, r.status))
        = [(some "i-1", some "acct1", "open")]) := by
  decide

/-- Witness for C9's amended theorem at the stopped-instance scenario. -/
theorem c9_witness :
    ((sync_all_accounts (w9fetch "t0") w4fresh "t0" w4db0).1.recommendations.filter
        (fun r => decide (r.cloud_account_id = some w4acct.id))
      = generate_recommendations (w4fresh w4acct.id) "t0" [w9inst "t0"]) ∧
    (∀ r ∈ (sync_all_accounts (w9fetch "t0") w4fresh "t0" w4db0).1.recommendations.filter
        (fun r => decide (r.cloud_account_id = some w4acct.id)), r.status = "open") :=
  c9_amended_regeneration_open w4db0 (w9fetch "t0") w4fresh "t0" w4acct
    [w9inst "t0"] (by decide) (by decide) rfl (by decide)

/-- `connect_provider` on a registered provider whose required-field filter
comes out nonempty: the request is rejected with exactly that missing list
and the credential store is untouched. -/
theorem connect_provider_rejects
    (store : List (String × List (String × String)))
    (p : String) (data : List (String × String))
    (hconn : hasConnector (asciiLower p) = true)
    (hne : ((v1RequiredFields (asciiLower p)).filter
      (fun g => ¬ (data.map Prod.fst).contains g)).isEmpty = false) :
    connect_provider store p data =
      (.missingFields ((v1RequiredFields (asciiLower p)).filter
        (fun g => ¬ (data.map Prod.fst).contains g)), store) := by
  simp only [connect_provider]
  rw [if_neg (by simp [hconn]), if_neg (by rw [hne]; exact Bool.false_ne_true)]

/-- C7 (corrected, amended part): validation exists only in the v1
`connect_provider` endpoint and only for `aws` and `azure` — for those two
providers a request missing a required field `f` is rejected with a
missing-fields response naming `f` and leaves the credential store
unchanged.  The v2 fetch path performs **no** credential validation before
the network call: for any credentials whatsoever the AWS pre-network phase
succeeds, and an empty credential dict yields `None` keys with the region
silently defaulted to `us-east-1`. -/
theorem c7_amended_validation
    (store : List (String × List (String × String)))
    (p f : String) (data : List (String × String))
    (hp : p = "aws" ∨ p = "azure")
    (hf : f ∈ v1RequiredFields p)
    (hmiss : (data.map Prod.fst).contains f = false) :
    (∃ fs, connect_provider store p data = (.missingFields fs, store) ∧ f ∈ fs) ∧
    (∀ creds, ∃ cfg, v2AwsPreNetwork "aws" creds = .ok cfg) ∧
    ((awsConnectorInit []).access_key_id = none ∧
     (awsConnectorInit []).secret_access_key = none ∧
     (awsConnectorInit []).region = "us-east-1") := by
  refine ⟨?_, fun creds => ⟨awsConnectorInit creds, rfl⟩, by decide⟩
  have hlow : asciiLower p = p := by rcases hp with rfl | rfl <;> rfl
  have hconn : hasConnector (asciiLower p) = true := by
    rcases hp with rfl | rfl <;> rfl
  have hfm : f ∈ (v1RequiredFields (asciiLower p)).filter
      (fun g => ¬ (data.map Prod.fst).contains g) := by
    rw [hlow]
    refine List.mem_filter.mpr ⟨hf, ?_⟩
    simp only [decide_eq_true_eq, hmiss]
    exact Bool.false_ne_true
  have hne : ((v1RequiredFields (asciiLower p)).filter
      (fun g => ¬ (data.map Prod.fst).contains g)).isEmpty = false := by
    cases hm : (v1RequiredFields (asciiLower p)).filter
        (fun g => ¬ (data.map Prod.fst).contains g) with
    | nil => rw [hm] at hfm; cases hfm
    | cons x xs => rfl
  exact ⟨_, connect_provider_rejects store p data hconn hne, hfm⟩

/-- Counterexample for C7 as stated: the v2 AWS path accepts **empty**
credentials — every required field is missing, yet the pre-network phase
succeeds with the region defaulted — and complete GCP / DigitalOcean
credential sets are rejected as *unsupported* by the v1 endpoint (no
GCP/DO validation exists there at all). -/
theorem c7_counterexample :
    (v2AwsPreNetwork "aws" [] = .ok
      { access_key_id := none, secret_access_key := none,
        region := "us-east-1" }) ∧
    (connect_provider [] "gcp"
      [("project_id", "p"), ("service_account_json", "j")] = (.unsupported, [])) ∧
    (connect_provider [] "do" [("token", "t")] = (.unsupported, [])) :=
  ⟨rfl, rfl, rfl⟩

/-- Witness for C7's amended theorem: an AWS connect request lacking
`region` is rejected naming `region` among the missing fields. -/
theorem c7_witness :
    (∃ fs, connect_provider [] "aws"
        [("access_key_id", "k"), ("secret_access_key", "s")]
      = (.missingFields fs, []) ∧ "region" ∈ fs) ∧
    (∀ creds, ∃ cfg, v2AwsPreNetwork "aws" creds = .ok cfg) ∧
    ((awsConnectorInit []).access_key_id = none ∧
     (awsConnectorInit []).secret_access_key = none ∧
     (awsConnectorInit []).region = "us-east-1") :=
  c7_amended_validation [] "aws" "region"
    [("access_key_id", "k"), ("secret_access_key", "s")]
    (Or.inl rfl) (by decide) (by decide)

/-- C8 (corrected, amended part): the three flagship mappings hold —
Azure `deallocated`, GCP `SUSPENDED` and DigitalOcean `off` all normalize
to `stopped` — and states outside the Azure / DigitalOcean maps pass
through verbatim; but a state outside the GCP map comes out **lowercased**
(`status.lower()` is the fallback), not verbatim. -/
theorem c8_amended_normalization
    (s : String)
    (haz : assocGet azureStateMap s = none)
    (hdo : assocGet doStatusMap s = none)
    (hgc : assocGet gcpStatusMap s = none) :
    (azureNormalizeState "deallocated" = "stopped" ∧
     gcpNormalizeState "SUSPENDED" = "stopped" ∧
     doNormalizeState (some "off") = some "stopped") ∧
    (azureNormalizeState s = s) ∧
    (doNormalizeState (some s) = some s) ∧
    (gcpNormalizeState s = asciiLower s) := by
  refine ⟨by decide, ?_, ?_, ?_⟩
  · simp only [azureNormalizeState]
    rw [haz]
    rfl
  · simp only [doNormalizeState]
    rw [hdo]
    rfl
  · simp only [gcpNormalizeState]
    rw [hgc]
    rfl

/-- Counterexample for C8 as stated: GCP's fallback is `status.lower()`,
so the unmapped native status `REPAIRING` does **not** pass through
verbatim — it becomes `repairing`. -/
theorem c8_counterexample :
    gcpNormalizeState "REPAIRING" = "repairing" ∧
    gcpNormalizeState "REPAIRING" ≠ "REPAIRING" ∧
    assocGet gcpStatusMap "REPAIRING" = none := by
  decide

/-- Witness for C8's amended theorem at the unmapped state `failed`. -/
theorem c8_witness :
    (azureNormalizeState "deallocated" = "stopped" ∧
     gcpNormalizeState "SUSPENDED" = "stopped" ∧
     doNormalizeState (some "off") = some "stopped") ∧
    (azureNormalizeState "failed" = "failed") ∧
    (doNormalizeState (some "failed") = some "failed") ∧
    (gcpNormalizeState "failed" = asciiLower "failed") :=
  c8_amended_normalization "failed" (by decide) (by decide) (by decide)

end CloudWatcher
